import Mathlib

/-!
Shallow embedding of the ADM ("Additive Detail Measure") metric core of
`libavfilter/vf_adm.c` (functions `get_cube`, `adm_sum_cube`, `adm_decouple`,
`adm_csf`, `adm_cm_thresh`, `adm_cm`, the `adm_dwt2_fn` macro instances and the
driver `ff_adm_process`), together with theorems settling the frozen claims.

Modelling conventions, applied uniformly:
* C `int16_t` cells are modelled by `ℤ` together with an explicit two's
  complement truncation `i16` applied wherever the source stores into an
  `int16_t` object; C `int` (32-bit) accumulators that can overflow are wrapped
  with `wrap32` at each accumulation, matching two's complement behaviour.
* `x >> 15` on a (possibly negative) accumulator is an arithmetic shift in the
  source's toolchain, i.e. floor division by `2^15`, modelled by `shr15`.
* Floating-point literals (the wavelet taps, the `Q` table, `1e-30`, `1e-2`)
  are modelled by the exact rational value of their decimal text, and `lrint`
  by `round : ℚ → ℤ`.  None of the rounded fixed-point constants sits on a
  tie, and no claim below depends on the sub-ulp difference between a decimal
  literal and its floating-point representation.
* The float constant `cos_1deg_sq = cos(1°)²` of `adm_decouple` is transcendental;
  the model threads it through as an explicit parameter `c1sq : ℚ`.  Every
  theorem that depends on it assumes only the mathematically true bound
  `c1sq ≤ 1` (indeed `cos(1°)² < 1`), which the float constant satisfies.
* Images and subbands are total functions `ℕ → ℕ → ℤ` indexed (row, column);
  byte strides are a memory-layout artefact and do not appear.  The struct
  `ADMData` is declared in `adm.h`, which is not part of the source slice; the
  scratch rows `temp_lo`/`temp_hi` are modelled as `int16_t` rows, as implied
  by their allocation size `ALIGN_CEIL(w * sizeof(int16_t))` in `ff_adm_init`.
* The driver reuses two arena slots (`ref_scale`/`main_scale`) as the next
  scale's input image, but `adm_dwt2_*` always iterates with the context's
  full-frame `s->width`/`s->height` (lines 323-324), so at scales ≥ 1 it reads
  beyond the region the copy wrote.  Those out-of-range cells hold arena
  residue; the model makes this explicit via garbage families
  `gr gm : ℕ → ℕ → ℕ → ℤ` giving the residue seen at each scale.
-/

namespace Adm

/-- Two's complement truncation of an integer to a signed 16-bit value, the
effect of storing into an `int16_t` cell. -/
def i16 (x : ℤ) : ℤ := (x + 32768) % 65536 - 32768

/-- Two's complement wrap of an integer to a signed 32-bit value, the effect of
overflow in a C `int` accumulator. -/
def wrap32 (x : ℤ) : ℤ := (x + 2 ^ 31) % 2 ^ 32 - 2 ^ 31

/-- Arithmetic right shift by `BIT_SHIFT = 15`, i.e. floor division by `2^15`;
this is the single quantization step of the fixed-point pipeline. -/
def shr15 (x : ℤ) : ℤ := Int.fdiv x (2 ^ 15)

/-- Mirror ("reflect, no duplicated edge") boundary extension used by both the
DWT passes and the 3x3 masking filter: `src_i = FFABS(k); if (src_i >= n)
src_i = 2*n - src_i - 1;`. -/
def reflect (n : ℕ) (k : ℤ) : ℤ :=
  if (n : ℤ) ≤ |k| then 2 * n - |k| - 1 else |k|

/-- In-range reflected indices are nonnegative, so `.toNat` below is lossless
whenever the bounds proved in the safety claim hold. -/
def reflectN (n : ℕ) (k : ℤ) : ℕ := (reflect n k).toNat

/-- Fueled upward search: the least `z ≥ z0` with `num ≤ den * z^3`, provided
the fuel reaches it.  Used to express `ceil(cbrt(num/den))` without reals. -/
def ccAux (num den : ℕ) : ℕ → ℕ → ℕ
  | 0, z => z
  | fuel + 1, z => if num ≤ den * z ^ 3 then z else ccAux num den fuel (z + 1)

/-- `ceil(cbrt(num/den))` for a nonnegative rational given as `num/den`. -/
def ceilCbrtNat (num den : ℕ) : ℕ := ccAux num den (num + 1) 0

/-- Fueled upward search for the greatest `z` with `z^3 ≤ a`. -/
def fcAux (a : ℕ) : ℕ → ℕ → ℕ
  | 0, z => z
  | fuel + 1, z => if (z + 1) ^ 3 ≤ a then fcAux a fuel (z + 1) else z

/-- `floor(cbrt(a))` for a natural number `a`. -/
def floorCbrtNat (a : ℕ) : ℕ := fcAux a a 0

/-- `ceil(cbrt(s))` for a signed integer `s` (the cube root is odd, so the
negative side is the negated floor-cbrt of `-s`). -/
def ceilCbrtInt (s : ℤ) : ℤ :=
  if 0 ≤ s then (ceilCbrtNat s.toNat 1 : ℤ) else -(floorCbrtNat (-s).toNat : ℤ)

/-- One wrapping `sum += term` step of a C `int` accumulator. -/
def wadd (a b : ℤ) : ℤ := wrap32 (a + b)

/-- Exact integer sum `f 0 + f 1 + ... + f (n-1)`. -/
def sumZ (f : ℕ → ℤ) : ℕ → ℤ
  | 0 => 0
  | n + 1 => sumZ f n + f n

/-- A row of wrapping accumulations threaded through an incoming accumulator,
modelling the inner `for (j ...) sum += ...` loop. -/
def rowFold (acc : ℤ) (f : ℕ → ℤ) : ℕ → ℤ
  | 0 => acc
  | n + 1 => wadd (rowFold acc f n) (f n)

/-- The doubly nested accumulation `for (i ...) for (j ...) sum += row i j` of
`adm_sum_cube`, threading one shared `int` accumulator. -/
def regionFold (row : ℕ → ℕ → ℤ) (cols : ℕ) : ℕ → ℤ
  | 0 => 0
  | i + 1 => rowFold (regionFold row cols i) (row i) cols

/-- `get_cube`: cube of an `int16_t` value computed in 32-bit `int`
arithmetic; the parameter conversion truncates to 16 bits and the final
multiply can wrap (the first, `val*val ≤ 2^30`, cannot). -/
def get_cube (v : ℤ) : ℤ := wrap32 (i16 v * i16 v * i16 v)

/-- The border bounds of `adm_sum_cube`: `int left = w * border_factor - 0.5`
with `ADM_BORDER_FACTOR = 0.1`.  In exact arithmetic `w*0.1 - 0.5 = (w-5)/10`,
and the C double evaluation rounds to the same truncated integer for every
`w ≥ 0` (the product `w * 0.1` rounds to the nearest double of `w/10`, and the
expression is at least `1/10` away from every discontinuity of the truncation
except at multiples of `5`, where `w/10 - 1/2` is exactly representable). -/
def borderIdx (w : ℕ) : ℕ := (((w : ℤ) - 5).tdiv 10).toNat

/-- `adm_sum_cube` of `vf_adm.c` (lines 110-130): wrapping
sum of cubed magnitudes over the border-cropped interior, then
`ceil(cbrt(sum)) + ceil(cbrt(area/32.0))` truncated to the `int16_t` return
type. -/
def adm_sum_cube (x : ℕ → ℕ → ℤ) (w h : ℕ) : ℤ :=
  let left := borderIdx w
  let top := borderIdx h
  let s : ℤ := regionFold
    (fun a b => get_cube |i16 (x (top + a) (left + b))|) (w - 2 * left) (h - 2 * top)
  i16 (ceilCbrtInt s + (ceilCbrtNat ((h - 2 * top) * (w - 2 * left)) 32 : ℕ))

/-- Energy pooling as the claim states it (spec §4.6): interior rows in
`[⌈h*0.1⌉, h - ⌈h*0.1⌉)`, columns in `[⌈w*0.1⌉, w - ⌈w*0.1⌉)`, exact
`ceil(cbrt(Σ|x|^3)) + ceil(cbrt(area/32))`.  Written from the claim's words,
for comparison against the source function above. -/
def adm_sum_cube_spec (x : ℕ → ℕ → ℤ) (w h : ℕ) : ℤ :=
  let left : ℕ := (Int.ceil ((w : ℚ) / 10)).toNat
  let top : ℕ := (Int.ceil ((h : ℚ) / 10)).toNat
  let s : ℤ := sumZ (fun a => sumZ (fun b => |x (top + a) (left + b)| ^ 3) (w - 2 * left)) (h - 2 * top)
  (ceilCbrtNat s.toNat 1 : ℕ) + (ceilCbrtNat ((h - 2 * top) * (w - 2 * left)) 32 : ℕ)

/-- The four detail/approximation bands of one wavelet level
(`adm_dwt_band_t`), as total functions on (row, column). -/
@[ext]
structure adm_dwt_band_t where
  band_a : ℕ → ℕ → ℤ
  band_h : ℕ → ℕ → ℤ
  band_v : ℕ → ℕ → ℤ
  band_d : ℕ → ℕ → ℤ

/-- The `eps = 1e-30` guard of `adm_decouple`, as an exact rational. -/
def eps : ℚ := 1 / 10 ^ 30

/-- The gain clamp `k < 0 ? 0 : (k > 1 ? 1 : k)` of `adm_decouple`. -/
def clamp01 (k : ℚ) : ℚ := if k < 0 then 0 else if 1 < k then 1 else k

/-- Per-pixel body of `adm_decouple` (lines 151-192): gains for the three
orientations, the 1-degree cosine-similarity test on the (H, V) vectors, the
override of all three provisional values on alignment, and the two
`ceil`-rounded `int16_t` stores.  Returns `((rh, rv, rd), (ah, av, ad))`. -/
def decouplePixel (c1sq : ℚ) (oh ov od th tv td : ℤ) : (ℤ × ℤ × ℤ) × (ℤ × ℤ × ℤ) :=
  let kh := clamp01 ((th : ℚ) / ((oh : ℚ) + eps))
  let kv := clamp01 ((tv : ℚ) / ((ov : ℚ) + eps))
  let kd := clamp01 ((td : ℚ) / ((od : ℚ) + eps))
  let ot_dp : ℤ := oh * th + ov * tv
  let o_mag_sq : ℤ := oh * oh + ov * ov
  let t_mag_sq : ℤ := th * th + tv * tv
  let angle_flag : Prop :=
    0 ≤ ot_dp ∧ c1sq * (o_mag_sq : ℚ) * (t_mag_sq : ℚ) ≤ (ot_dp : ℚ) * (ot_dp : ℚ)
  let tmph : ℚ := if angle_flag then (th : ℚ) else kh * oh
  let tmpv : ℚ := if angle_flag then (tv : ℚ) else kv * ov
  let tmpd : ℚ := if angle_flag then (td : ℚ) else kd * od
  ((i16 ⌈tmph⌉, i16 ⌈tmpv⌉, i16 ⌈tmpd⌉),
   (i16 ⌈(th : ℚ) - tmph⌉, i16 ⌈(tv : ℚ) - tmpv⌉, i16 ⌈(td : ℚ) - tmpd⌉))

/-- Decoupling of one pixel as the claim states it (spec §4.3): per
orientation the gain `k = distorted / (reference + 1e-30)` clamped to
`[0, 1]` gives the provisional restored value `k * reference`; exactly when
the angle test `dp ≥ 0 ∧ dp² ≥ cos²(1°)·|ref|²·|dist|²` holds on the (H, V)
vectors, the provisional values of all three orientations are replaced by the
raw distorted values.  Written from the claim's words; yields the three
provisional restored values, before any rounding. -/
def decouplePixelSpec (c1sq : ℚ) (oh ov od th tv td : ℤ) : ℚ × ℚ × ℚ :=
  let provisional : ℚ × ℚ × ℚ :=
    (clamp01 ((th : ℚ) / ((oh : ℚ) + eps)) * (oh : ℚ),
     clamp01 ((tv : ℚ) / ((ov : ℚ) + eps)) * (ov : ℚ),
     clamp01 ((td : ℚ) / ((od : ℚ) + eps)) * (od : ℚ))
  let dp : ℚ := ((oh * th + ov * tv : ℤ) : ℚ)
  let refMagSq : ℚ := ((oh * oh + ov * ov : ℤ) : ℚ)
  let distMagSq : ℚ := ((th * th + tv * tv : ℤ) : ℚ)
  if 0 ≤ dp ∧ c1sq * refMagSq * distMagSq ≤ dp * dp then ((th : ℚ), (tv : ℚ), (td : ℚ))
  else provisional

/-- `adm_decouple` over whole bands; `band_a` of the outputs is never written
by the source (nor read downstream) and is modelled as zero. -/
def adm_decouple (ref main : adm_dwt_band_t) (c1sq : ℚ) :
    adm_dwt_band_t × adm_dwt_band_t :=
  let px := fun i j =>
    decouplePixel c1sq (ref.band_h i j) (ref.band_v i j) (ref.band_d i j)
      (main.band_h i j) (main.band_v i j) (main.band_d i j)
  ({ band_a := fun _ _ => 0
     band_h := fun i j => (px i j).1.1
     band_v := fun i j => (px i j).1.2.1
     band_d := fun i j => (px i j).1.2.2 },
   { band_a := fun _ _ => 0
     band_h := fun i j => (px i j).2.1
     band_v := fun i j => (px i j).2.2.1
     band_d := fun i j => (px i j).2.2.2 })

/-- The CSF sensitivity table `Q[4][2]` (Watson et al.), exact decimal
values of the float literals. -/
def Qtab (scale col : ℕ) : ℚ :=
  match scale, col with
  | 0, 0 => 57.534645
  | 0, 1 => 169.767410
  | 1, 0 => 31.265896
  | 1, 1 => 69.937431
  | 2, 0 => 23.056629
  | 2, 1 => 40.990150
  | 3, 0 => 21.895033
  | 3, 1 => 31.936741
  | _, _ => 0

/-- `rfactor[theta] = lrint((1.0 / Q[scale][theta == 2 ? 1 : 0]) * (1 << 15))`
of `adm_csf`. -/
def rfactor (scale theta : ℕ) : ℤ :=
  round ((1 / Qtab scale (if theta = 2 then 1 else 0)) * 2 ^ 15)

/-- `adm_csf` (lines 196-226): each detail band is scaled by the fixed-point
reciprocal sensitivity and right-shifted by 15; `band_a` is not processed. -/
def adm_csf (src : adm_dwt_band_t) (scale : ℕ) : adm_dwt_band_t :=
  { band_a := fun _ _ => 0
    band_h := fun i j => i16 (shr15 (rfactor scale 0 * src.band_h i j))
    band_v := fun i j => i16 (shr15 (rfactor scale 1 * src.band_v i j))
    band_d := fun i j => i16 (shr15 (rfactor scale 2 * src.band_d i j)) }

/-- The masking-filter coefficient exactly as the source computes it
(lines 255-256): `(lrint((filt_i == 1 && filt_j == 1) ? 1.0/15.0 : 1.0/30.0)
* (1 << BIT_SHIFT))` — note that `lrint` is applied to the bare tap value
*before* the `2^15` scaling. -/
def cmFiltCoeff (fi fj : ℕ) : ℤ :=
  round (if fi = 1 ∧ fj = 1 then (1 : ℚ) / 15 else (1 : ℚ) / 30) * 2 ^ 15

/-- `adm_cm_thresh` (lines 228-279): per pixel, the three orientations'
3x3 mirrored filter responses of the absolute band values, each shifted right
by 15 and accumulated into the `int16_t` destination cell. -/
def adm_cm_thresh (src : adm_dwt_band_t) (w h : ℕ) : ℕ → ℕ → ℤ :=
  fun i j =>
    let response := fun (band : ℕ → ℕ → ℤ) =>
      shr15 (sumZ (fun fi => sumZ (fun fj =>
        cmFiltCoeff fi fj *
          |band (reflectN h ((i : ℤ) - 1 + fi)) (reflectN w ((j : ℤ) - 1 + fj))|) 3) 3)
    i16 (i16 (i16 (0 + response src.band_h) + response src.band_v) + response src.band_d)

/-- `adm_cm` (lines 281-313): subtract the masking threshold from the
magnitude of each restored band value and floor at zero. -/
def adm_cm (src : adm_dwt_band_t) (thresh : ℕ → ℕ → ℤ) : adm_dwt_band_t :=
  { band_a := fun _ _ => 0
    band_h := fun i j => i16 (max 0 (|src.band_h i j| - thresh i j))
    band_v := fun i j => i16 (max 0 (|src.band_v i j| - thresh i j))
    band_d := fun i j => i16 (max 0 (|src.band_d i j| - thresh i j)) }

/-- The analysis low-pass taps `dwt2_db2_coeffs_lo`, exact decimal values. -/
def dwt2_db2_coeffs_lo : ℕ → ℚ
  | 0 => 0.482962913144690
  | 1 => 0.836516303737469
  | 2 => 0.224143868041857
  | 3 => -0.129409522550921
  | _ => 0

/-- The analysis high-pass taps `dwt2_db2_coeffs_hi`, exact decimal values. -/
def dwt2_db2_coeffs_hi : ℕ → ℚ
  | 0 => -0.129409522550921
  | 1 => -0.224143868041857
  | 2 => 0.836516303737469
  | 3 => -0.482962913144690
  | _ => 0

/-- Fixed-point taps as converted by `ff_adm_init` (lines 678-681):
`lrint(coeff * (1 << BIT_SHIFT))`. -/
def dwt2_db2_coeffs_lo_int (i : ℕ) : ℤ := round (dwt2_db2_coeffs_lo i * 2 ^ 15)

/-- Fixed-point high-pass taps, same conversion. -/
def dwt2_db2_coeffs_hi_int (i : ℕ) : ℤ := round (dwt2_db2_coeffs_hi i * 2 ^ 15)

/-- The `adm_dwt2_fn` macro body (lines 315-412): a vertical 4-tap pass into
two `int16_t` scratch rows followed by two horizontal passes, all with
mirrored indexing and a 15-bit arithmetic shift.  `w` and `h` are the values
the source reads from `s->width`/`s->height` — the full-frame dimensions at
every scale.  The three `uint8_t`/`uint16_t`/`int16_t` instantiations differ
only in the byte width of the source samples, which the sample-function
representation abstracts. -/
def adm_dwt2 (src : ℕ → ℕ → ℤ) (w h : ℕ) : adm_dwt_band_t :=
  let temp_lo := fun i j =>
    i16 (shr15 (sumZ (fun fi => dwt2_db2_coeffs_lo_int fi * src (reflectN h (2 * (i : ℤ) - 1 + fi)) j) 4))
  let temp_hi := fun i j =>
    i16 (shr15 (sumZ (fun fi => dwt2_db2_coeffs_hi_int fi * src (reflectN h (2 * (i : ℤ) - 1 + fi)) j) 4))
  { band_a := fun i j =>
      i16 (shr15 (sumZ (fun fj => dwt2_db2_coeffs_lo_int fj * temp_lo i (reflectN w (2 * (j : ℤ) - 1 + fj))) 4))
    band_v := fun i j =>
      i16 (shr15 (sumZ (fun fj => dwt2_db2_coeffs_hi_int fj * temp_lo i (reflectN w (2 * (j : ℤ) - 1 + fj))) 4))
    band_h := fun i j =>
      i16 (shr15 (sumZ (fun fj => dwt2_db2_coeffs_lo_int fj * temp_hi i (reflectN w (2 * (j : ℤ) - 1 + fj))) 4))
    band_d := fun i j =>
      i16 (shr15 (sumZ (fun fj => dwt2_db2_coeffs_hi_int fj * temp_hi i (reflectN w (2 * (j : ℤ) - 1 + fj))) 4)) }

/-- `adm_dwt2_8bit`: the macro instance reading `uint8_t` samples. -/
def adm_dwt2_8bit : (ℕ → ℕ → ℤ) → ℕ → ℕ → adm_dwt_band_t := adm_dwt2

/-- `adm_dwt2_10bit`: the macro instance reading `uint16_t` samples. -/
def adm_dwt2_10bit : (ℕ → ℕ → ℤ) → ℕ → ℕ → adm_dwt_band_t := adm_dwt2

/-- `adm_dwt2_32bit`: the macro instance reading `int16_t` samples of the
recursive scales. -/
def adm_dwt2_32bit : (ℕ → ℕ → ℤ) → ℕ → ℕ → adm_dwt_band_t := adm_dwt2

/-- All four bands of a quad hold `int16_t`-ranged values; true of every
`adm_dwt2` output by construction. -/
def bandsInRange (q : adm_dwt_band_t) : Prop :=
  ∀ i j, (-32768 ≤ q.band_h i j ∧ q.band_h i j ≤ 32767) ∧
    (-32768 ≤ q.band_v i j ∧ q.band_v i j ≤ 32767) ∧
    (-32768 ≤ q.band_d i j ∧ q.band_d i j ≤ 32767)

/-- Per-frame statistics produced by one `ff_adm_process` call: the score,
the (clamped) numerator and denominator, and the per-scale
`(num_scale, den_scale)` pairs written into `scores[]`. -/
structure ADMResult where
  score : ℚ
  score_num : ℚ
  score_den : ℚ
  scores : List (ℤ × ℤ)

/-- `numden_limit = 1e-2 * (s->width * s->height) / (1920.0 * 1080.0)`
(line 448). -/
def numden_limit (w h : ℕ) : ℚ := (1 / 100) * ((w : ℚ) * (h : ℚ)) / (1920 * 1080)

/-- Assembly of the next scale's working image: `adm_buffer_copy` writes rows
`< h` and columns `< w` of the approximation band into the
`ref_scale`/`main_scale` arena slot; outside that region the `int16_t` slot
holds arena residue (`garb`), which the next scale's full-dimension DWT does
read. -/
def next_scale_image (band : ℕ → ℕ → ℤ) (w h : ℕ) (garb : ℕ → ℕ → ℤ) :
    ℕ → ℕ → ℤ :=
  fun i j => if i < h ∧ j < w then band i j else i16 (garb i j)

/-- State threaded through the `for (scale = 0; scale < 4; scale++)` loop of
`ff_adm_process`: the locally halved dimensions, the current working images,
the `num`/`den` accumulators and the `scores[]` entries so far. -/
@[ext]
structure LoopState where
  w : ℕ
  h : ℕ
  refImg : ℕ → ℕ → ℤ
  mainImg : ℕ → ℕ → ℤ
  num : ℤ
  den : ℤ
  scores : List (ℤ × ℤ)

/-- The bit-depth dispatch of the driver: scale 0 uses the 8-bit entry when
`s->desc->comp[0].depth <= 8` and the 10-bit entry otherwise (there is no
other case); scales 1-3 use the recursive 16-bit entry. -/
def admScaleDwt (W H depth scale : ℕ) (img : ℕ → ℕ → ℤ) : adm_dwt_band_t :=
  if scale = 0 then
    if depth ≤ 8 then adm_dwt2_8bit img W H else adm_dwt2_10bit img W H
  else adm_dwt2_32bit img W H

/-- The per-scale statistics of one driver iteration: decouple, the three CSF
applications, threshold, masking, and the six poolings; returns
`(num_scale, den_scale)`. -/
def admScaleStats (c1sq : ℚ) (ref_dwt2 main_dwt2 : adm_dwt_band_t)
    (scale w h : ℕ) : ℤ × ℤ :=
  let dec := adm_decouple ref_dwt2 main_dwt2 c1sq
  let csf_o := adm_csf ref_dwt2 scale
  let csf_r := adm_csf dec.1 scale
  let csf_a := adm_csf dec.2 scale
  let mta := adm_cm_thresh csf_a w h
  let cm_r := adm_cm csf_r mta
  (adm_sum_cube cm_r.band_h w h + adm_sum_cube cm_r.band_v w h +
     adm_sum_cube cm_r.band_d w h,
   adm_sum_cube csf_o.band_h w h + adm_sum_cube csf_o.band_v w h +
     adm_sum_cube csf_o.band_d w h)

/-- One iteration of the driver loop of `ff_adm_process` (lines 510-569).
`W`/`H` are the context dimensions `s->width`/`s->height` that the
`adm_dwt2_*` functions read at every scale; `st.w`/`st.h` are the locally
halved dimensions used by every other stage. -/
def admScaleIter (W H depth : ℕ) (c1sq : ℚ) (gr gm : ℕ → ℕ → ℕ → ℤ)
    (st : LoopState) (scale : ℕ) : LoopState :=
  let ref_dwt2 := admScaleDwt W H depth scale st.refImg
  let main_dwt2 := admScaleDwt W H depth scale st.mainImg
  let w := (st.w + 1) / 2
  let h := (st.h + 1) / 2
  let p := admScaleStats c1sq ref_dwt2 main_dwt2 scale w h
  { w := w
    h := h
    refImg := next_scale_image ref_dwt2.band_a w h (gr scale)
    mainImg := next_scale_image main_dwt2.band_a w h (gm scale)
    num := st.num + p.1
    den := st.den + p.2
    scores := st.scores ++ [p] }

/-- `ff_adm_process` (lines 445-583): four driver-loop iterations followed by
the noise-floor clamps and the final ratio.  `c1sq` is the float constant
`cos_1deg_sq`; `gr`/`gm` give the arena residue each scale's
`ref_scale`/`main_scale` slot holds beyond the region the approximation copy
wrote (scale index → row → column → value). -/
def ff_adm_process (W H depth : ℕ) (c1sq : ℚ) (refFrame mainFrame : ℕ → ℕ → ℤ)
    (gr gm : ℕ → ℕ → ℕ → ℤ) : ADMResult :=
  let init : LoopState :=
    { w := W, h := H, refImg := refFrame, mainImg := mainFrame
      num := 0, den := 0, scores := [] }
  let st := List.foldl (admScaleIter W H depth c1sq gr gm) init [0, 1, 2, 3]
  let limit := numden_limit W H
  let num : ℚ := if (st.num : ℚ) < limit then 0 else (st.num : ℚ)
  let den : ℚ := if (st.den : ℚ) < limit then 0 else (st.den : ℚ)
  { score := if den = 0 then 1 else num / den
    score_num := num
    score_den := den
    scores := st.scores }

/-- The loop state of the exact-arena-layout 2x2 model: the contents of the
two copied approximation cells `ref_scale[0]` and `main_scale[0]`, and the
accumulators. -/
@[ext]
structure RealState2x2 where
  a : ℤ
  b : ℤ
  num : ℤ
  den : ℤ
  scores : List (ℤ × ℤ)

/-- One scale-`k` (`k ≥ 1`) iteration of `ff_adm_process` at `W = H = 2` with
the arena laid out exactly as the source builds it: `buf_stride =
ALIGN_CEIL(((2+1)/2) * sizeof(int16_t)) = 32` bytes (`MAX_ALIGN` is 32), so
`buf_sz = 32` bytes = 16 `int16_t` cells per slot, and `data_buf` holds
`ref_scale` at cells 0-15, `main_scale` at cells 16-31 and
`ref_dwt2.band_a` at cells 32-47.  At scales ≥ 1 the DWT reads
`src[src_i * 16 + src_j]` for reflected `src_i, src_j ∈ {0, 1}` (it uses
`s->width = s->height = 2` at every scale): the reference pass reads cells
0, 1, 16, 17 — the copied approximation `ref_scale[0] = a`, the never-written
residue cell `ref_scale[1] = r1`, the copied `main_scale[0] = b`, and the
residue `main_scale[1] = r17` — and the distorted pass reads cells 16, 17,
32, 33 — `b`, `r17`, then `ref_dwt2.band_a[0]`, which the reference DWT of
the *same* scale has just overwritten with its approximation value `A`, and
the residue `ref_dwt2.band_a[1] = r33`.  Every DWT output and both
`adm_buffer_copy` calls write only cell 0 of their slot once `(w+1)/2 =
(h+1)/2 = 1`, so the three residue cells keep their uninitialized `int16_t`
contents across all scales. -/
def admRealIter2x2 (c1sq : ℚ) (r1 r17 r33 : ℤ) (st : RealState2x2)
    (scale : ℕ) : RealState2x2 :=
  let refIn : ℕ → ℕ → ℤ := fun i j =>
    if i = 0 then (if j = 0 then st.a else i16 r1)
    else (if j = 0 then st.b else i16 r17)
  let R := adm_dwt2_32bit refIn 2 2
  let A := R.band_a 0 0
  let mainIn : ℕ → ℕ → ℤ := fun i j =>
    if i = 0 then (if j = 0 then st.b else i16 r17)
    else (if j = 0 then A else i16 r33)
  let M := adm_dwt2_32bit mainIn 2 2
  let p := admScaleStats c1sq R M scale 1 1
  { a := A, b := M.band_a 0 0, num := st.num + p.1, den := st.den + p.2,
    scores := st.scores ++ [p] }

/-- `ff_adm_process` at `W = H = 2` with the exact arena layout: scale 0 reads
the frames themselves (in bounds, at the frame stride), scales 1-3 run
`admRealIter2x2` over the shared arena, then the noise-floor clamps and the
final ratio of lines 571-582.  `r1`, `r17`, `r33` are the `int16_t` contents
of the three uninitialized cells the overrunning reads reach (see
`admRealIter2x2`); unlike the per-slot residue families of `ff_adm_process`,
every memory state the real program can be in at this size corresponds to
exactly one choice of them. -/
def ff_adm_process_2x2 (depth : ℕ) (c1sq : ℚ)
    (refFrame mainFrame : ℕ → ℕ → ℤ) (r1 r17 r33 : ℤ) : ADMResult :=
  let R0 := admScaleDwt 2 2 depth 0 refFrame
  let M0 := admScaleDwt 2 2 depth 0 mainFrame
  let p0 := admScaleStats c1sq R0 M0 0 1 1
  let st0 : RealState2x2 :=
    { a := R0.band_a 0 0, b := M0.band_a 0 0
      num := p0.1, den := p0.2, scores := [p0] }
  let st := List.foldl (admRealIter2x2 c1sq r1 r17 r33) st0 [1, 2, 3]
  let limit := numden_limit 2 2
  let num : ℚ := if (st.num : ℚ) < limit then 0 else (st.num : ℚ)
  let den : ℚ := if (st.den : ℚ) < limit then 0 else (st.den : ℚ)
  { score := if den = 0 then 1 else num / den
    score_num := num
    score_den := den
    scores := st.scores }

/-! ### Theorems -/

theorem i16_lb (x : ℤ) : -32768 ≤ i16 x := by
  have h := Int.emod_nonneg (x + 32768) (by norm_num : (65536:ℤ) ≠ 0)
  unfold i16; omega

theorem i16_ub (x : ℤ) : i16 x ≤ 32767 := by
  have h := Int.emod_lt_of_pos (x + 32768) (by norm_num : (0:ℤ) < 65536)
  unfold i16; omega

theorem i16_eq_self {x : ℤ} (h1 : -32768 ≤ x) (h2 : x ≤ 32767) : i16 x = x := by
  unfold i16
  rw [Int.emod_eq_of_lt (by omega) (by omega)]
  omega

theorem wrap32_eq_self {x : ℤ} (h1 : -(2 ^ 31) ≤ x) (h2 : x < 2 ^ 31) :
    wrap32 x = x := by
  unfold wrap32
  rw [Int.emod_eq_of_lt (by omega) (by omega)]
  omega

theorem shr15_zero : shr15 0 = 0 := by decide

theorem i16_zero : i16 0 = 0 := by decide

theorem wrap32_zero : wrap32 0 = 0 := by decide

theorem ccAux_sat (num den : ℕ) :
    ∀ fuel z, num ≤ den * (z + fuel) ^ 3 → num ≤ den * (ccAux num den fuel z) ^ 3 := by
  intro fuel
  induction fuel with
  | zero => intro z h; simpa [ccAux] using h
  | succ n ih =>
      intro z h
      by_cases hz : num ≤ den * z ^ 3
      · simp [ccAux, hz]
      · simp only [ccAux, if_neg hz]
        refine ih (z + 1) ?_
        have he : z + 1 + n = z + (n + 1) := by omega
        rw [he]; exact h

theorem ccAux_not_sat (num den : ℕ) :
    ∀ fuel z y, z ≤ y → y < ccAux num den fuel z → den * y ^ 3 < num := by
  intro fuel
  induction fuel with
  | zero => intro z y hzy hlt; simp [ccAux] at hlt; omega
  | succ n ih =>
      intro z y hzy hlt
      by_cases hz : num ≤ den * z ^ 3
      · simp [ccAux, hz] at hlt; omega
      · simp only [ccAux, if_neg hz] at hlt
        rcases Nat.eq_or_lt_of_le hzy with rfl | hlt2
        · omega
        · exact ih (z + 1) y hlt2 hlt

theorem ceilCbrtNat_sat (num den : ℕ) (hden : 1 ≤ den) :
    num ≤ den * (ceilCbrtNat num den) ^ 3 := by
  refine ccAux_sat num den (num + 1) 0 ?_
  have h1 : num + 1 ≤ (num + 1) ^ 3 := Nat.le_self_pow (by norm_num) _
  calc num ≤ num + 1 := Nat.le_succ num
    _ ≤ (0 + (num + 1)) ^ 3 := by simpa using h1
    _ ≤ den * (0 + (num + 1)) ^ 3 := Nat.le_mul_of_pos_left _ hden

theorem ceilCbrtNat_min (num den : ℕ) {y : ℕ} (hy : y < ceilCbrtNat num den) :
    den * y ^ 3 < num :=
  ccAux_not_sat num den (num + 1) 0 y (Nat.zero_le y) hy

theorem ceilCbrtNat_le {num den B : ℕ} (hB : num ≤ den * B ^ 3) :
    ceilCbrtNat num den ≤ B := by
  by_contra h
  push_neg at h
  exact absurd hB (Nat.not_le.mpr (ceilCbrtNat_min num den h))

theorem ceilCbrtNat_mono {n1 n2 den : ℕ} (hden : 1 ≤ den) (h : n1 ≤ n2) :
    ceilCbrtNat n1 den ≤ ceilCbrtNat n2 den :=
  ceilCbrtNat_le (le_trans h (ceilCbrtNat_sat n2 den hden))

theorem fcAux_le (a : ℕ) : ∀ fuel z, z ^ 3 ≤ a → (fcAux a fuel z) ^ 3 ≤ a := by
  intro fuel
  induction fuel with
  | zero => intro z h; simpa [fcAux] using h
  | succ n ih =>
      intro z h
      by_cases hz : (z + 1) ^ 3 ≤ a
      · simp only [fcAux, if_pos hz]; exact ih (z + 1) hz
      · simpa [fcAux, hz] using h

theorem fcAux_gt (a : ℕ) : ∀ fuel z, a < (z + fuel + 1) ^ 3 → a < (fcAux a fuel z + 1) ^ 3 := by
  intro fuel
  induction fuel with
  | zero => intro z h; simpa [fcAux] using h
  | succ n ih =>
      intro z h
      by_cases hz : (z + 1) ^ 3 ≤ a
      · simp only [fcAux, if_pos hz]
        refine ih (z + 1) ?_
        have he : z + 1 + n + 1 = z + (n + 1) + 1 := by omega
        rw [he]; exact h
      · simp only [fcAux, if_neg hz]; omega

theorem floorCbrtNat_le (a : ℕ) : (floorCbrtNat a) ^ 3 ≤ a :=
  fcAux_le a a 0 (by simp)

theorem floorCbrtNat_gt (a : ℕ) : a < (floorCbrtNat a + 1) ^ 3 := by
  refine fcAux_gt a a 0 ?_
  have h : a + 1 ≤ (a + 1) ^ 3 := Nat.le_self_pow (by norm_num) _
  calc a < a + 1 := Nat.lt_succ_self a
    _ ≤ (a + 1) ^ 3 := h
    _ = (0 + a + 1) ^ 3 := by ring_nf

theorem cube_le_cube {a b : ℤ} (h : a ≤ b) : a ^ 3 ≤ b ^ 3 := by
  nlinarith [sq_nonneg (a + b), sq_nonneg a, sq_nonneg b, sq_nonneg (a - b)]

theorem ceilCbrtInt_sat (s : ℤ) : s ≤ (ceilCbrtInt s) ^ 3 := by
  unfold ceilCbrtInt
  by_cases hs : 0 ≤ s
  · rw [if_pos hs]
    have h : s.toNat ≤ (ceilCbrtNat s.toNat 1) ^ 3 := by
      simpa using ceilCbrtNat_sat s.toNat 1 le_rfl
    have h2 : (s.toNat : ℤ) ≤ (((ceilCbrtNat s.toNat 1) ^ 3 : ℕ) : ℤ) := by exact_mod_cast h
    have h3 : (((ceilCbrtNat s.toNat 1) ^ 3 : ℕ) : ℤ) = ((ceilCbrtNat s.toNat 1 : ℕ) : ℤ) ^ 3 := by
      push_cast; ring
    omega
  · rw [if_neg hs]
    have h := floorCbrtNat_le (-s).toNat
    have h2 : ((floorCbrtNat (-s).toNat : ℕ) : ℤ) ^ 3 ≤ ((-s).toNat : ℤ) := by exact_mod_cast h
    have h3 : ((-s).toNat : ℤ) = -s := Int.toNat_of_nonneg (by omega)
    have : (-(floorCbrtNat (-s).toNat : ℤ)) ^ 3 = -(((floorCbrtNat (-s).toNat : ℕ) : ℤ) ^ 3) := by ring
    omega

theorem ceilCbrtInt_min (s : ℤ) {y : ℤ} (hy : y < ceilCbrtInt s) : y ^ 3 < s := by
  unfold ceilCbrtInt at hy
  by_cases hs : 0 ≤ s
  · rw [if_pos hs] at hy
    by_cases hy0 : 0 ≤ y
    · have hlt : y.toNat < ceilCbrtNat s.toNat 1 := by omega
      have h : y.toNat ^ 3 < s.toNat := by
        simpa using ceilCbrtNat_min s.toNat 1 hlt
      have h2 : ((y.toNat ^ 3 : ℕ) : ℤ) < ((s.toNat : ℕ) : ℤ) := by exact_mod_cast h
      have h3 : ((y.toNat ^ 3 : ℕ) : ℤ) = y ^ 3 := by
        push_cast [Int.toNat_of_nonneg hy0]; ring
      omega
    · push_neg at hy0
      have hny : 0 < -y := by omega
      have h3 : 0 < (-y) * ((-y) * (-y)) := mul_pos hny (mul_pos hny hny)
      nlinarith [h3]
  · rw [if_neg hs] at hy
    set f := floorCbrtNat (-s).toNat with hf
    have hgt := floorCbrtNat_gt (-s).toNat
    have h2 : ((-s).toNat : ℤ) < ((f : ℕ) + 1 : ℕ) ^ 3 := by exact_mod_cast hgt
    have h3 : ((-s).toNat : ℤ) = -s := Int.toNat_of_nonneg (by omega)
    have hy2 : y ≤ -(f : ℤ) - 1 := by omega
    have hc : y ^ 3 ≤ (-(f : ℤ) - 1) ^ 3 := cube_le_cube hy2
    have he : (-(f : ℤ) - 1) ^ 3 = -(((f : ℤ) + 1) ^ 3) := by ring
    have h4 : (((f : ℕ) + 1 : ℕ) : ℤ) ^ 3 = ((f : ℤ) + 1) ^ 3 := by push_cast; ring
    omega

theorem ceilCbrtInt_le {s B : ℤ} (hB : s ≤ B ^ 3) : ceilCbrtInt s ≤ B := by
  by_contra h
  push_neg at h
  exact absurd hB (not_le.mpr (ceilCbrtInt_min s h))

theorem ceilCbrtInt_mono {s t : ℤ} (h : s ≤ t) : ceilCbrtInt s ≤ ceilCbrtInt t :=
  ceilCbrtInt_le (le_trans h (ceilCbrtInt_sat t))

theorem sumZ_nonneg {f : ℕ → ℤ} : ∀ {n}, (∀ j < n, 0 ≤ f j) → 0 ≤ sumZ f n := by
  intro n
  induction n with
  | zero => intro _; simp [sumZ]
  | succ m ih =>
      intro h
      have h1 : 0 ≤ sumZ f m := ih (fun j hj => h j (by omega))
      have h2 : 0 ≤ f m := h m (by omega)
      simpa [sumZ] using add_nonneg h1 h2

theorem rowFold_eq_exact {f : ℕ → ℤ} {acc : ℤ} :
    ∀ {n}, (∀ j < n, 0 ≤ f j) → 0 ≤ acc → acc + sumZ f n < 2 ^ 31 →
    rowFold acc f n = acc + sumZ f n := by
  intro n
  induction n with
  | zero => intro _ _ _; simp [rowFold, sumZ]
  | succ m ih =>
      intro hf hacc hb
      have hfm : 0 ≤ f m := hf m (by omega)
      have hs : 0 ≤ sumZ f m := sumZ_nonneg (fun j hj => hf j (by omega))
      have hb' : acc + sumZ f m < 2 ^ 31 := by simp [sumZ] at hb; omega
      have hih := ih (fun j hj => hf j (by omega)) hacc hb'
      simp only [rowFold, sumZ, wadd, hih]
      rw [wrap32_eq_self (by omega) (by simp [sumZ] at hb; omega)]
      ring

theorem regionFold_eq_exact {row : ℕ → ℕ → ℤ} {cols : ℕ} :
    ∀ {rows}, (∀ i < rows, ∀ j < cols, 0 ≤ row i j) →
    sumZ (fun i => sumZ (row i) cols) rows < 2 ^ 31 →
    regionFold row cols rows = sumZ (fun i => sumZ (row i) cols) rows := by
  intro rows
  induction rows with
  | zero => intro _ _; simp [regionFold, sumZ]
  | succ m ih =>
      intro hnn hb
      have hrm : ∀ j < cols, 0 ≤ row m j := hnn m (by omega)
      have hrows_nn : ∀ i < m, 0 ≤ sumZ (row i) cols :=
        fun i hi => sumZ_nonneg (hnn i (by omega))
      have hs_nn : 0 ≤ sumZ (fun i => sumZ (row i) cols) m := sumZ_nonneg hrows_nn
      have hsm_nn : 0 ≤ sumZ (row m) cols := sumZ_nonneg hrm
      have hb' : sumZ (fun i => sumZ (row i) cols) m < 2 ^ 31 := by
        simp only [sumZ] at hb; omega
      have hih := ih (fun i hi => hnn i (by omega)) hb'
      simp only [regionFold, sumZ]
      rw [hih]
      exact rowFold_eq_exact hrm hs_nn (by simp only [sumZ] at hb; omega)

theorem ceil_eq_of {q : ℚ} {n : ℤ} (h1 : (n : ℚ) - 1 < q) (h2 : q ≤ (n : ℚ)) :
    ⌈q⌉ = n :=
  Int.ceil_eq_iff.mpr ⟨h1, h2⟩

theorem round_eq_of {q : ℚ} {n : ℤ} (h1 : (n : ℚ) ≤ q + 1 / 2)
    (h2 : q + 1 / 2 < (n : ℚ) + 1) : round q = n := by
  rw [round_eq]
  exact Int.floor_eq_iff.mpr ⟨h1, h2⟩

theorem sumZ_congr {f g : ℕ → ℤ} : ∀ {n}, (∀ j < n, f j = g j) → sumZ f n = sumZ g n := by
  intro n
  induction n with
  | zero => intro _; rfl
  | succ m ih =>
      intro h
      simp only [sumZ, ih (fun j hj => h j (by omega)), h m (by omega)]

theorem sumZ_zero : ∀ n, sumZ (fun _ => (0 : ℤ)) n = 0 := by
  intro n
  induction n with
  | zero => rfl
  | succ m ih => simp [sumZ, ih]

theorem sumZ_term_le {f : ℕ → ℤ} : ∀ {n} j, (∀ k < n, 0 ≤ f k) → j < n → f j ≤ sumZ f n := by
  intro n
  induction n with
  | zero => intro j _ hj; omega
  | succ m ih =>
      intro j hnn hj
      by_cases hjm : j = m
      · subst hjm
        have h0 : 0 ≤ sumZ f j := sumZ_nonneg (fun k hk => hnn k (by omega))
        simp only [sumZ]; omega
      · have h1 := ih j (fun k hk => hnn k (by omega)) (by omega)
        have h2 := hnn m (by omega)
        simp only [sumZ]; omega

theorem rowFold_congr {f g : ℕ → ℤ} {acc : ℤ} :
    ∀ {n}, (∀ j < n, f j = g j) → rowFold acc f n = rowFold acc g n := by
  intro n
  induction n with
  | zero => intro _; rfl
  | succ m ih =>
      intro h
      simp only [rowFold, ih (fun j hj => h j (by omega)), h m (by omega)]

theorem regionFold_congr {r1 r2 : ℕ → ℕ → ℤ} {cols : ℕ} :
    ∀ {rows}, (∀ i < rows, ∀ j < cols, r1 i j = r2 i j) →
    regionFold r1 cols rows = regionFold r2 cols rows := by
  intro rows
  induction rows with
  | zero => intro _; rfl
  | succ m ih =>
      intro h
      simp only [regionFold, ih (fun i hi => h i (by omega))]
      exact rowFold_congr (h m (by omega))

theorem rowFold_zero (n : ℕ) : rowFold 0 (fun _ => (0 : ℤ)) n = 0 := by
  induction n with
  | zero => rfl
  | succ m ih => simp [rowFold, ih, wadd, wrap32_zero]

theorem regionFold_zero (cols rows : ℕ) :
    regionFold (fun _ _ => (0 : ℤ)) cols rows = 0 := by
  induction rows with
  | zero => rfl
  | succ m ih => simp only [regionFold, ih]; exact rowFold_zero cols

theorem get_cube_zero : get_cube 0 = 0 := by decide

theorem ceilCbrtInt_zero : ceilCbrtInt 0 = 0 := by decide

theorem ceilCbrtInt_nonneg {s : ℤ} (hs : 0 ≤ s) : 0 ≤ ceilCbrtInt s := by
  unfold ceilCbrtInt
  rw [if_pos hs]
  exact Int.ofNat_nonneg _

/-- C10: for dimensions at least 2, every source index produced by the DWT
mirror rule (`src_i = |2*i - 1 + f|`, folded to `2*h - src_i - 1` when
`src_i ≥ h`, for `i < (h+1)/2`, `f < 4`) and by the 3x3 masking-filter rule
(`|i - 1 + f|` folded likewise, `i < h`, `f < 3`) lies in `[0, h)`; the same
rule applies to columns.  The guarantee fails for dimension 1 in the DWT:
`i = 0, f = 3` reflects to `-1`. -/
theorem C10_reflect_safety :
    (∀ h i f : ℕ, 2 ≤ h → i < (h + 1) / 2 → f < 4 →
      0 ≤ reflect h (2 * (i : ℤ) - 1 + (f : ℤ)) ∧
        reflect h (2 * (i : ℤ) - 1 + (f : ℤ)) < (h : ℤ)) ∧
    (∀ h i f : ℕ, 2 ≤ h → i < h → f < 3 →
      0 ≤ reflect h ((i : ℤ) - 1 + (f : ℤ)) ∧
        reflect h ((i : ℤ) - 1 + (f : ℤ)) < (h : ℤ)) ∧
    reflect 1 (2 * ((0 : ℕ) : ℤ) - 1 + ((3 : ℕ) : ℤ)) < 0 := by
  refine ⟨?_, ?_, by decide⟩
  · intro h i f h2 hi hf
    unfold reflect
    rcases abs_cases (2 * (i : ℤ) - 1 + (f : ℤ)) with ⟨he, hk⟩ | ⟨he, hk⟩ <;>
      rw [he] <;> split_ifs <;> constructor <;> omega
  · intro h i f h2 hi hf
    unfold reflect
    rcases abs_cases ((i : ℤ) - 1 + (f : ℤ)) with ⟨he, hk⟩ | ⟨he, hk⟩ <;>
      rw [he] <;> split_ifs <;> constructor <;> omega

/-- Witness for C10 at `h = 2`: the first DWT tap of output row 0 and the
first masking tap of row 0 both reflect into `[0, 2)`. -/
theorem C10_witness :
    (0 ≤ reflect 2 (2 * ((0 : ℕ) : ℤ) - 1 + ((0 : ℕ) : ℤ)) ∧
      reflect 2 (2 * ((0 : ℕ) : ℤ) - 1 + ((0 : ℕ) : ℤ)) < ((2 : ℕ) : ℤ)) ∧
    (0 ≤ reflect 2 (((0 : ℕ) : ℤ) - 1 + ((0 : ℕ) : ℤ)) ∧
      reflect 2 (((0 : ℕ) : ℤ) - 1 + ((0 : ℕ) : ℤ)) < ((2 : ℕ) : ℤ)) :=
  ⟨C10_reflect_safety.1 2 0 0 (by norm_num) (by norm_num) (by norm_num),
   C10_reflect_safety.2.1 2 0 0 (by norm_num) (by norm_num) (by norm_num)⟩

/-- Every masking-filter coefficient the source computes is zero, because
`lrint` is applied to the bare tap value before the `2^15` scaling. -/
theorem cmFiltCoeff_eq_zero (fi fj : ℕ) : cmFiltCoeff fi fj = 0 := by
  unfold cmFiltCoeff
  have h15 : round ((1 : ℚ) / 15) = 0 :=
    @round_eq_of ((1 : ℚ) / 15) 0 (by norm_num) (by norm_num)
  have h30 : round ((1 : ℚ) / 30) = 0 :=
    @round_eq_of ((1 : ℚ) / 30) 0 (by norm_num) (by norm_num)
  split_ifs
  · rw [h15, zero_mul]
  · rw [h30, zero_mul]

/-- C2: the source's masking-filter coefficient (lines 255-256) evaluates to
`0` for the center tap and for every other tap, because the misplaced
parenthesis applies `lrint` before the `2^15` scaling; quantizing the taps by
the conversion convention the claim states (and that `ff_adm_init` uses for
the DWT taps, `lrint(tap * 2^15)`) would give `2185` and `1092`. -/
theorem C2_cm_filter_coeff :
    cmFiltCoeff 1 1 = 0 ∧ cmFiltCoeff 0 0 = 0 ∧
    round (((1 : ℚ) / 15) * 2 ^ 15) = 2185 ∧
    round (((1 : ℚ) / 30) * 2 ^ 15) = 1092 ∧
    cmFiltCoeff 1 1 ≠ round (((1 : ℚ) / 15) * 2 ^ 15) := by
  have h2185 : round (((1 : ℚ) / 15) * 2 ^ 15) = 2185 :=
    @round_eq_of (((1 : ℚ) / 15) * 2 ^ 15) 2185 (by norm_num) (by norm_num)
  have h1092 : round (((1 : ℚ) / 30) * 2 ^ 15) = 1092 :=
    @round_eq_of (((1 : ℚ) / 30) * 2 ^ 15) 1092 (by norm_num) (by norm_num)
  refine ⟨cmFiltCoeff_eq_zero 1 1, cmFiltCoeff_eq_zero 0 0, h2185, h1092, ?_⟩
  rw [cmFiltCoeff_eq_zero 1 1, h2185]
  norm_num

/-- Consequence of the zero coefficients: the masking threshold is
identically zero for every input band. -/
theorem adm_cm_thresh_eq_zero (src : adm_dwt_band_t) (w h i j : ℕ) :
    adm_cm_thresh src w h i j = 0 := by
  unfold adm_cm_thresh
  have hz : ∀ band : ℕ → ℕ → ℤ,
      shr15 (sumZ (fun fi => sumZ (fun fj =>
        cmFiltCoeff fi fj *
          |band (reflectN h ((i : ℤ) - 1 + fi)) (reflectN w ((j : ℤ) - 1 + fj))|) 3) 3) = 0 := by
    intro band
    have h1 : sumZ (fun fi => sumZ (fun fj =>
        cmFiltCoeff fi fj *
          |band (reflectN h ((i : ℤ) - 1 + fi)) (reflectN w ((j : ℤ) - 1 + fj))|) 3) 3 = 0 := by
      rw [sumZ_congr (g := fun _ => 0) (fun fi _ => by
        rw [sumZ_congr (g := fun _ => 0) (fun fj _ => by
          rw [cmFiltCoeff_eq_zero, zero_mul])]
        exact sumZ_zero 3)]
      exact sumZ_zero 3
    rw [h1]; exact shr15_zero
  simp only [hz, add_zero, i16_zero, zero_add]

theorem admScaleIter_num (W H depth : ℕ) (c1sq : ℚ) (gr gm : ℕ → ℕ → ℕ → ℤ)
    (st : LoopState) (scale : ℕ) :
    (admScaleIter W H depth c1sq gr gm st scale).num =
      st.num + (admScaleStats c1sq (admScaleDwt W H depth scale st.refImg)
        (admScaleDwt W H depth scale st.mainImg) scale ((st.w + 1) / 2) ((st.h + 1) / 2)).1 :=
  rfl

theorem admScaleIter_den (W H depth : ℕ) (c1sq : ℚ) (gr gm : ℕ → ℕ → ℕ → ℤ)
    (st : LoopState) (scale : ℕ) :
    (admScaleIter W H depth c1sq gr gm st scale).den =
      st.den + (admScaleStats c1sq (admScaleDwt W H depth scale st.refImg)
        (admScaleDwt W H depth scale st.mainImg) scale ((st.w + 1) / 2) ((st.h + 1) / 2)).2 :=
  rfl

theorem admScaleIter_scores (W H depth : ℕ) (c1sq : ℚ) (gr gm : ℕ → ℕ → ℕ → ℤ)
    (st : LoopState) (scale : ℕ) :
    (admScaleIter W H depth c1sq gr gm st scale).scores =
      st.scores ++ [admScaleStats c1sq (admScaleDwt W H depth scale st.refImg)
        (admScaleDwt W H depth scale st.mainImg) scale ((st.w + 1) / 2) ((st.h + 1) / 2)] :=
  rfl

theorem foldl_num_inv (W H depth : ℕ) (c1sq : ℚ) (gr gm : ℕ → ℕ → ℕ → ℤ) :
    ∀ (l : List ℕ) (st : LoopState),
      st.num = (st.scores.map Prod.fst).sum →
      (List.foldl (admScaleIter W H depth c1sq gr gm) st l).num =
        (((List.foldl (admScaleIter W H depth c1sq gr gm) st l).scores.map Prod.fst).sum) := by
  intro l
  induction l with
  | nil => intro st h; simpa using h
  | cons a t ih =>
      intro st h
      simp only [List.foldl_cons]
      refine ih _ ?_
      rw [admScaleIter_num, admScaleIter_scores, h]
      simp

theorem foldl_den_inv (W H depth : ℕ) (c1sq : ℚ) (gr gm : ℕ → ℕ → ℕ → ℤ) :
    ∀ (l : List ℕ) (st : LoopState),
      st.den = (st.scores.map Prod.snd).sum →
      (List.foldl (admScaleIter W H depth c1sq gr gm) st l).den =
        (((List.foldl (admScaleIter W H depth c1sq gr gm) st l).scores.map Prod.snd).sum) := by
  intro l
  induction l with
  | nil => intro st h; simpa using h
  | cons a t ih =>
      intro st h
      simp only [List.foldl_cons]
      refine ih _ ?_
      rw [admScaleIter_den, admScaleIter_scores, h]
      simp

theorem foldl_scores_length (W H depth : ℕ) (c1sq : ℚ) (gr gm : ℕ → ℕ → ℕ → ℤ) :
    ∀ (l : List ℕ) (st : LoopState),
      (List.foldl (admScaleIter W H depth c1sq gr gm) st l).scores.length =
        st.scores.length + l.length := by
  intro l
  induction l with
  | nil => intro st; simp
  | cons a t ih =>
      intro st
      simp only [List.foldl_cons, ih, admScaleIter_scores]
      simp [List.length_append]
      omega

/-- C1: one `ff_adm_process` evaluation produces exactly 4 per-scale
`(numerator, denominator)` pairs; the clamped numerator (resp. denominator)
equals the sum over all 4 scales, zeroed exactly when that sum is strictly
below the noise floor `1e-2 * (W*H) / (1920*1080)`; and the score is `1.0`
when the clamped denominator is zero and `numerator/denominator` otherwise. -/
theorem C1_final_score (W H depth : ℕ) (c1sq : ℚ) (refF mainF : ℕ → ℕ → ℤ)
    (gr gm : ℕ → ℕ → ℕ → ℤ) :
    (ff_adm_process W H depth c1sq refF mainF gr gm).scores.length = 4 ∧
    (ff_adm_process W H depth c1sq refF mainF gr gm).score_num =
      (if ((((ff_adm_process W H depth c1sq refF mainF gr gm).scores.map Prod.fst).sum : ℤ) : ℚ) <
          numden_limit W H then 0
       else ((((ff_adm_process W H depth c1sq refF mainF gr gm).scores.map Prod.fst).sum : ℤ) : ℚ)) ∧
    (ff_adm_process W H depth c1sq refF mainF gr gm).score_den =
      (if ((((ff_adm_process W H depth c1sq refF mainF gr gm).scores.map Prod.snd).sum : ℤ) : ℚ) <
          numden_limit W H then 0
       else ((((ff_adm_process W H depth c1sq refF mainF gr gm).scores.map Prod.snd).sum : ℤ) : ℚ)) ∧
    (ff_adm_process W H depth c1sq refF mainF gr gm).score =
      (if (ff_adm_process W H depth c1sq refF mainF gr gm).score_den = 0 then 1
       else (ff_adm_process W H depth c1sq refF mainF gr gm).score_num /
         (ff_adm_process W H depth c1sq refF mainF gr gm).score_den) := by
  have hnum := foldl_num_inv W H depth c1sq gr gm [0, 1, 2, 3]
    { w := W, h := H, refImg := refF, mainImg := mainF, num := 0, den := 0, scores := [] }
    (by simp)
  have hden := foldl_den_inv W H depth c1sq gr gm [0, 1, 2, 3]
    { w := W, h := H, refImg := refF, mainImg := mainF, num := 0, den := 0, scores := [] }
    (by simp)
  have hlen := foldl_scores_length W H depth c1sq gr gm [0, 1, 2, 3]
    { w := W, h := H, refImg := refF, mainImg := mainF, num := 0, den := 0, scores := [] }
  have hsc : (ff_adm_process W H depth c1sq refF mainF gr gm).scores =
      (List.foldl (admScaleIter W H depth c1sq gr gm)
        { w := W, h := H, refImg := refF, mainImg := mainF, num := 0, den := 0, scores := [] }
        [0, 1, 2, 3]).scores := rfl
  refine ⟨by simpa using hlen, ?_, ?_, rfl⟩
  · rw [hsc, ← hnum]; rfl
  · rw [hsc, ← hden]; rfl

theorem eps_pos : 0 < eps := by norm_num [eps]

theorem eps_lt_one : eps < 1 := by norm_num [eps]

theorem clamp01_nonneg (k : ℚ) : 0 ≤ clamp01 k := by
  unfold clamp01; split_ifs <;> linarith

theorem clamp01_le_one (k : ℚ) : clamp01 k ≤ 1 := by
  unfold clamp01; split_ifs <;> linarith

theorem clamp01_of_neg {k : ℚ} (h : k < 0) : clamp01 k = 0 := by
  unfold clamp01; rw [if_pos h]

theorem clamp01_zero : clamp01 0 = 0 := by
  unfold clamp01; norm_num

/-- Bounds on the provisional restored value `tmp = clamp01(t/(o+eps))*o` and
the resulting ceil/floor roundings, for `int16_t`-ranged inputs: the restored
store and the additive store both stay inside the `int16_t` range. -/
theorem decouple_gain_bounds (o t : ℤ) (ho1 : -32768 ≤ o) (ho2 : o ≤ 32767)
    (ht1 : -32768 ≤ t) (ht2 : t ≤ 32767) :
    (-32768 ≤ ⌈clamp01 ((t : ℚ) / ((o : ℚ) + eps)) * (o : ℚ)⌉ ∧
      ⌈clamp01 ((t : ℚ) / ((o : ℚ) + eps)) * (o : ℚ)⌉ ≤ 32767) ∧
    (-32768 ≤ t - ⌊clamp01 ((t : ℚ) / ((o : ℚ) + eps)) * (o : ℚ)⌋ ∧
      t - ⌊clamp01 ((t : ℚ) / ((o : ℚ) + eps)) * (o : ℚ)⌋ ≤ 32767) := by
  set r : ℚ := (t : ℚ) / ((o : ℚ) + eps) with hr
  set k : ℚ := clamp01 r with hkdef
  have hk0 : 0 ≤ k := clamp01_nonneg r
  have hk1 : k ≤ 1 := clamp01_le_one r
  rcases le_or_lt 0 o with ho | ho
  · -- o >= 0 : denominator positive
    have hoq : (0 : ℚ) ≤ (o : ℚ) := by exact_mod_cast ho
    have hden : (0 : ℚ) < (o : ℚ) + eps := by linarith [eps_pos]
    have htmp0 : 0 ≤ k * (o : ℚ) := mul_nonneg hk0 hoq
    have htmp1 : k * (o : ℚ) ≤ (o : ℚ) := by
      calc k * (o : ℚ) ≤ 1 * (o : ℚ) := mul_le_mul_of_nonneg_right hk1 hoq
        _ = (o : ℚ) := one_mul _
    have hceil0 : 0 ≤ ⌈k * (o : ℚ)⌉ := Int.ceil_nonneg htmp0
    have hceil1 : ⌈k * (o : ℚ)⌉ ≤ o := by
      have := Int.ceil_le_ceil (α := ℚ) htmp1
      rwa [Int.ceil_intCast] at this
    have hfl0 : 0 ≤ ⌊k * (o : ℚ)⌋ := Int.le_floor.mpr (by exact_mod_cast htmp0)
    have hfl1 : ⌊k * (o : ℚ)⌋ ≤ o := by
      have := Int.floor_le_floor (α := ℚ) htmp1
      rwa [Int.floor_intCast] at this
    rcases le_or_lt 0 t with ht | ht
    · exact ⟨⟨by omega, by omega⟩, by omega⟩
    · -- t < 0 : the gain clamps to 0
      have htq : (t : ℚ) < 0 := by exact_mod_cast ht
      have hrneg : r < 0 := div_neg_of_neg_of_pos htq hden
      have hkz : k = 0 := clamp01_of_neg hrneg
      rw [hkz, zero_mul]
      simp only [Int.ceil_zero, Int.floor_zero]
      omega
  · -- o < 0 : denominator negative
    have hoq : (o : ℚ) ≤ -1 := by exact_mod_cast (by omega : o ≤ -1)
    have hden : (o : ℚ) + eps < 0 := by linarith [eps_lt_one]
    have htmp1 : (o : ℚ) ≤ k * (o : ℚ) := by
      calc (o : ℚ) = 1 * (o : ℚ) := (one_mul _).symm
        _ ≤ k * (o : ℚ) := mul_le_mul_of_nonpos_right hk1 (by linarith)
    have htmp0 : k * (o : ℚ) ≤ 0 := mul_nonpos_of_nonneg_of_nonpos hk0 (by linarith)
    have hceil0 : (o : ℤ) ≤ ⌈k * (o : ℚ)⌉ := by
      have h := Int.le_ceil (k * (o : ℚ))
      have : (o : ℚ) ≤ ⌈k * (o : ℚ)⌉ := le_trans htmp1 h
      exact_mod_cast this
    have hceil1 : ⌈k * (o : ℚ)⌉ ≤ 0 := by
      have := Int.ceil_le_ceil (α := ℚ) htmp0
      simpa using this
    have hfl0 : (o : ℤ) ≤ ⌊k * (o : ℚ)⌋ := Int.le_floor.mpr (by exact_mod_cast htmp1)
    have hfl1 : ⌊k * (o : ℚ)⌋ ≤ 0 := by
      have := Int.floor_le_floor (α := ℚ) htmp0
      simpa using this
    rcases lt_trichotomy t 0 with ht | ht | ht
    · -- t <= -1 : additive lies in [t, t - o] ⊆ [-32768, 32767]
      exact ⟨⟨by omega, by omega⟩, by omega, by omega⟩
    · -- t = 0 : the gain is exactly 0
      subst ht
      have hrz : r = 0 := by rw [hr]; simp
      have hkz : k = 0 := by rw [hkdef, hrz]; exact clamp01_zero
      rw [hkz, zero_mul]
      simp only [Int.ceil_zero, Int.floor_zero]
      omega
    · -- t > 0 : the gain clamps to 0
      have htq : (0 : ℚ) < (t : ℚ) := by exact_mod_cast ht
      have hrneg : r < 0 := div_neg_of_pos_of_neg htq hden
      have hkz : k = 0 := clamp01_of_neg hrneg
      rw [hkz, zero_mul]
      simp only [Int.ceil_zero, Int.floor_zero]
      omega

/-- One unoverridden orientation of the decoupling stage: the two stores do
not truncate, and their sum reconstructs the distorted value up to the `+1`
from the two independent `ceil` roundings. -/
theorem decouple_orient (o t : ℤ) (ho1 : -32768 ≤ o) (ho2 : o ≤ 32767)
    (ht1 : -32768 ≤ t) (ht2 : t ≤ 32767) :
    i16 ⌈clamp01 ((t : ℚ) / ((o : ℚ) + eps)) * (o : ℚ)⌉ +
        i16 ⌈(t : ℚ) - clamp01 ((t : ℚ) / ((o : ℚ) + eps)) * (o : ℚ)⌉ - t = 0 ∨
    i16 ⌈clamp01 ((t : ℚ) / ((o : ℚ) + eps)) * (o : ℚ)⌉ +
        i16 ⌈(t : ℚ) - clamp01 ((t : ℚ) / ((o : ℚ) + eps)) * (o : ℚ)⌉ - t = 1 := by
  set tmp : ℚ := clamp01 ((t : ℚ) / ((o : ℚ) + eps)) * (o : ℚ) with htmp
  have hb := decouple_gain_bounds o t ho1 ho2 ht1 ht2
  rw [← htmp] at hb
  have hceil2 : ⌈(t : ℚ) - tmp⌉ = t - ⌊tmp⌋ := by
    rw [sub_eq_neg_add, Int.ceil_add_int, Int.ceil_neg]
    omega
  have h1 : i16 ⌈tmp⌉ = ⌈tmp⌉ := i16_eq_self hb.1.1 hb.1.2
  have h2 : i16 ⌈(t : ℚ) - tmp⌉ = ⌈(t : ℚ) - tmp⌉ := by
    rw [hceil2]
    exact i16_eq_self hb.2.1 hb.2.2
  rw [h1, h2, hceil2]
  have hlo := Int.floor_le_ceil tmp
  have hhi := Int.ceil_le_floor_add_one tmp
  omega

/-- C5: for every pixel and every detail orientation, the sum of the two
`ceil`-rounded decoupling outputs (`restored + additive`) differs from the
distorted input value by at most 1, for every `int16_t`-ranged input and any
value of the angle-test constant. -/
theorem C5_decouple_sum (c1sq : ℚ) (oh ov od th tv td : ℤ)
    (hoh : -32768 ≤ oh ∧ oh ≤ 32767) (hov : -32768 ≤ ov ∧ ov ≤ 32767)
    (hod : -32768 ≤ od ∧ od ≤ 32767) (hth : -32768 ≤ th ∧ th ≤ 32767)
    (htv : -32768 ≤ tv ∧ tv ≤ 32767) (htd : -32768 ≤ td ∧ td ≤ 32767) :
    |(decouplePixel c1sq oh ov od th tv td).1.1 +
        (decouplePixel c1sq oh ov od th tv td).2.1 - th| ≤ 1 ∧
    |(decouplePixel c1sq oh ov od th tv td).1.2.1 +
        (decouplePixel c1sq oh ov od th tv td).2.2.1 - tv| ≤ 1 ∧
    |(decouplePixel c1sq oh ov od th tv td).1.2.2 +
        (decouplePixel c1sq oh ov od th tv td).2.2.2 - td| ≤ 1 := by
  unfold decouplePixel
  simp only
  split_ifs with hflag
  · have hover : ∀ t : ℤ, -32768 ≤ t → t ≤ 32767 →
        |i16 ⌈(t : ℚ)⌉ + i16 ⌈(t : ℚ) - (t : ℚ)⌉ - t| ≤ 1 := by
      intro t h1 h2
      rw [sub_self, Int.ceil_zero, i16_zero, Int.ceil_intCast, i16_eq_self h1 h2]
      simp
    exact ⟨hover th hth.1 hth.2, hover tv htv.1 htv.2, hover td htd.1 htd.2⟩
  · refine ⟨?_, ?_, ?_⟩
    · rcases decouple_orient oh th hoh.1 hoh.2 hth.1 hth.2 with h | h <;> rw [h] <;> norm_num
    · rcases decouple_orient ov tv hov.1 hov.2 htv.1 htv.2 with h | h <;> rw [h] <;> norm_num
    · rcases decouple_orient od td hod.1 hod.2 htd.1 htd.2 with h | h <;> rw [h] <;> norm_num

/-- Witness for C5 at a concrete pixel: `(oh,ov,od) = (100, 20, 7)`,
`(th,tv,td) = (50, -30, 3)`. -/
theorem C5_witness :
    ((-32768 ≤ (100 : ℤ) ∧ (100 : ℤ) ≤ 32767) ∧ (-32768 ≤ (20 : ℤ) ∧ (20 : ℤ) ≤ 32767) ∧
      (-32768 ≤ (7 : ℤ) ∧ (7 : ℤ) ≤ 32767) ∧ (-32768 ≤ (50 : ℤ) ∧ (50 : ℤ) ≤ 32767) ∧
      (-32768 ≤ (-30 : ℤ) ∧ (-30 : ℤ) ≤ 32767) ∧ (-32768 ≤ (3 : ℤ) ∧ (3 : ℤ) ≤ 32767)) ∧
    |(decouplePixel (9997 / 10000) 100 20 7 50 (-30) 3).1.1 +
        (decouplePixel (9997 / 10000) 100 20 7 50 (-30) 3).2.1 - 50| ≤ 1 :=
  ⟨⟨⟨by norm_num, by norm_num⟩, ⟨by norm_num, by norm_num⟩, ⟨by norm_num, by norm_num⟩,
    ⟨by norm_num, by norm_num⟩, ⟨by norm_num, by norm_num⟩, ⟨by norm_num, by norm_num⟩⟩,
   (C5_decouple_sum (9997 / 10000) 100 20 7 50 (-30) 3
      ⟨by norm_num, by norm_num⟩ ⟨by norm_num, by norm_num⟩ ⟨by norm_num, by norm_num⟩
      ⟨by norm_num, by norm_num⟩ ⟨by norm_num, by norm_num⟩ ⟨by norm_num, by norm_num⟩).1⟩

/-- C6: the source's per-pixel decoupling coincides with the claim's
description: gain `distorted/(reference + 1e-30)` clamped to `[0, 1]`,
provisional restored value `k * reference`, override of all three
orientations (H, V and D) by the raw distorted values exactly when
`dp ≥ 0 ∧ dp² ≥ cos²(1°)·|ref|²·|dist|²`; the stored bands are the `ceil` of
the provisional value and of `distorted - provisional`, truncated to
`int16_t`. -/
theorem C6_decouple_refines (c1sq : ℚ) (oh ov od th tv td : ℤ) :
    decouplePixel c1sq oh ov od th tv td =
      ((i16 ⌈(decouplePixelSpec c1sq oh ov od th tv td).1⌉,
        i16 ⌈(decouplePixelSpec c1sq oh ov od th tv td).2.1⌉,
        i16 ⌈(decouplePixelSpec c1sq oh ov od th tv td).2.2⌉),
       (i16 ⌈(th : ℚ) - (decouplePixelSpec c1sq oh ov od th tv td).1⌉,
        i16 ⌈(tv : ℚ) - (decouplePixelSpec c1sq oh ov od th tv td).2.1⌉,
        i16 ⌈(td : ℚ) - (decouplePixelSpec c1sq oh ov od th tv td).2.2⌉)) := by
  unfold decouplePixel decouplePixelSpec
  simp only
  have hiff : (0 ≤ oh * th + ov * tv ∧
      c1sq * ((oh * oh + ov * ov : ℤ) : ℚ) * ((th * th + tv * tv : ℤ) : ℚ) ≤
        ((oh * th + ov * tv : ℤ) : ℚ) * ((oh * th + ov * tv : ℤ) : ℚ)) ↔
      (0 ≤ ((oh * th + ov * tv : ℤ) : ℚ) ∧
      c1sq * ((oh * oh + ov * ov : ℤ) : ℚ) * ((th * th + tv * tv : ℤ) : ℚ) ≤
        ((oh * th + ov * tv : ℤ) : ℚ) * ((oh * th + ov * tv : ℤ) : ℚ)) := by
    constructor
    · rintro ⟨h1, h2⟩; exact ⟨by exact_mod_cast h1, h2⟩
    · rintro ⟨h1, h2⟩; exact ⟨by exact_mod_cast h1, h2⟩
  split_ifs with h1 h2 h2
  · rfl
  · exact absurd (hiff.mp h1) h2
  · exact absurd (hiff.mpr h2) h1
  · rfl

theorem adm_dwt2_range (src : ℕ → ℕ → ℤ) (w h : ℕ) :
    bandsInRange (adm_dwt2 src w h) := by
  intro i j
  unfold adm_dwt2
  exact ⟨⟨i16_lb _, i16_ub _⟩, ⟨i16_lb _, i16_ub _⟩, ⟨i16_lb _, i16_ub _⟩⟩

theorem admScaleDwt_range (W H depth scale : ℕ) (img : ℕ → ℕ → ℤ) :
    bandsInRange (admScaleDwt W H depth scale img) := by
  unfold admScaleDwt adm_dwt2_8bit adm_dwt2_10bit adm_dwt2_32bit
  split_ifs <;> exact adm_dwt2_range img W H

/-- On identical reference and distorted inputs the angle test fires (the dot
product equals the common squared magnitude), so the restored outputs equal
the inputs and the additive outputs vanish. -/
theorem decouplePixel_self (c1sq : ℚ) (hc : c1sq ≤ 1) (o v d : ℤ)
    (ho : -32768 ≤ o ∧ o ≤ 32767) (hv : -32768 ≤ v ∧ v ≤ 32767)
    (hd : -32768 ≤ d ∧ d ≤ 32767) :
    decouplePixel c1sq o v d o v d = ((o, v, d), (0, 0, 0)) := by
  unfold decouplePixel
  simp only
  have hm : (0 : ℤ) ≤ o * o + v * v := add_nonneg (mul_self_nonneg o) (mul_self_nonneg v)
  have hflag : 0 ≤ o * o + v * v ∧
      c1sq * ((o * o + v * v : ℤ) : ℚ) * ((o * o + v * v : ℤ) : ℚ) ≤
        ((o * o + v * v : ℤ) : ℚ) * ((o * o + v * v : ℤ) : ℚ) := by
    refine ⟨hm, ?_⟩
    have hmq : (0 : ℚ) ≤ ((o * o + v * v : ℤ) : ℚ) := by exact_mod_cast hm
    nlinarith [mul_nonneg hmq hmq]
  simp only [if_pos hflag]
  have hstore : ∀ t : ℤ, -32768 ≤ t → t ≤ 32767 →
      i16 ⌈(t : ℚ)⌉ = t ∧ i16 ⌈(t : ℚ) - (t : ℚ)⌉ = 0 := by
    intro t h1 h2
    rw [Int.ceil_intCast, sub_self, Int.ceil_zero, i16_zero, i16_eq_self h1 h2]
    exact ⟨rfl, rfl⟩
  have h1 := hstore o ho.1 ho.2
  have h2 := hstore v hv.1 hv.2
  have h3 := hstore d hd.1 hd.2
  rw [h1.1, h1.2, h2.1, h2.2, h3.1, h3.2]

theorem adm_sum_cube_congr {x y : ℕ → ℕ → ℤ} (hxy : ∀ i j, x i j = y i j)
    (w h : ℕ) : adm_sum_cube x w h = adm_sum_cube y w h := by
  unfold adm_sum_cube
  simp only
  rw [regionFold_congr (fun i _ j _ => by rw [hxy])]

/-- The pooling element is insensitive to replacing a ranged value by the
truncated store of its magnitude (the path every masked value with zero
threshold takes). -/
theorem get_cube_abs_store (u : ℤ) (h1 : -32768 ≤ u) (h2 : u ≤ 32767) :
    get_cube |i16 (i16 (max 0 (|u| - 0)))| = get_cube |i16 u| := by
  rw [sub_zero, max_eq_right (abs_nonneg u), i16_eq_self h1 h2]
  rcases eq_or_lt_of_le h1 with he | hlt
  · rw [← he]
    decide
  · have hu : |u| ≤ 32767 := by
      rcases abs_cases u with ⟨he2, _⟩ | ⟨he2, _⟩ <;> omega
    have hu0 : (0 : ℤ) ≤ |u| := abs_nonneg u
    rw [i16_eq_self (by omega) hu, i16_eq_self (by omega) hu, abs_abs]

/-- Pooling only looks at bands through `get_cube |i16 _|`, so elementwise
equality of those images gives equal pooled results. -/
theorem adm_sum_cube_eq_of_elt {x y : ℕ → ℕ → ℤ} (w h : ℕ)
    (helt : ∀ i j, get_cube |i16 (x i j)| = get_cube |i16 (y i j)|) :
    adm_sum_cube x w h = adm_sum_cube y w h := by
  unfold adm_sum_cube
  simp only
  rw [regionFold_congr (fun i _ j _ => helt _ _)]

set_option maxHeartbeats 2000000 in
/-- For identical ranged quads the per-scale numerator equals the per-scale
denominator: the decouple stage restores the distorted bands exactly, the
additive bands vanish, the threshold is identically zero, and pooling is
insensitive to the absolute value. -/
theorem admScaleStats_self (c1sq : ℚ) (hc : c1sq ≤ 1) (q : adm_dwt_band_t)
    (hq : bandsInRange q) (scale w h : ℕ) :
    (admScaleStats c1sq q q scale w h).1 = (admScaleStats c1sq q q scale w h).2 := by
  have hdec : ∀ i j,
      decouplePixel c1sq (q.band_h i j) (q.band_v i j) (q.band_d i j)
        (q.band_h i j) (q.band_v i j) (q.band_d i j) =
      ((q.band_h i j, q.band_v i j, q.band_d i j), (0, 0, 0)) := fun i j =>
    decouplePixel_self c1sq hc _ _ _ (hq i j).1 (hq i j).2.1 (hq i j).2.2
  unfold admScaleStats adm_decouple adm_cm adm_csf
  simp only [hdec]
  have hcsf_range : ∀ (b : ℕ → ℕ → ℤ) (rf : ℤ) i j,
      -32768 ≤ i16 (shr15 (rf * b i j)) ∧ i16 (shr15 (rf * b i j)) ≤ 32767 :=
    fun b rf i j => ⟨i16_lb _, i16_ub _⟩
  have helt : ∀ (b : ℕ → ℕ → ℤ) (rf : ℤ) (thr : ℕ → ℕ → ℤ), (∀ i j, thr i j = 0) →
      ∀ i j, get_cube |i16 (i16 (max 0 (|i16 (shr15 (rf * b i j))| - thr i j)))| =
        get_cube |i16 (i16 (shr15 (rf * b i j)))| := by
    intro b rf thr hthr i j
    rw [hthr i j]
    exact get_cube_abs_store _ (hcsf_range b rf i j).1 (hcsf_range b rf i j).2
  have hthr0 : ∀ i j,
      adm_cm_thresh
        { band_a := fun _ _ => 0
          band_h := fun i j => i16 (shr15 (rfactor scale 0 * (0 : ℤ)))
          band_v := fun i j => i16 (shr15 (rfactor scale 1 * (0 : ℤ)))
          band_d := fun i j => i16 (shr15 (rfactor scale 2 * (0 : ℤ))) } w h i j = 0 :=
    fun i j => adm_cm_thresh_eq_zero _ w h i j
  congr 1
  · congr 1
    · exact adm_sum_cube_eq_of_elt w h (helt q.band_h (rfactor scale 0) _ hthr0)
    · exact adm_sum_cube_eq_of_elt w h (helt q.band_v (rfactor scale 1) _ hthr0)
  · exact adm_sum_cube_eq_of_elt w h (helt q.band_d (rfactor scale 2) _ hthr0)

theorem foldl_symmetric (W H depth : ℕ) (c1sq : ℚ) (hc : c1sq ≤ 1)
    (g : ℕ → ℕ → ℕ → ℤ) :
    ∀ (l : List ℕ) (st : LoopState), st.refImg = st.mainImg → st.num = st.den →
      (List.foldl (admScaleIter W H depth c1sq g g) st l).num =
        (List.foldl (admScaleIter W H depth c1sq g g) st l).den := by
  intro l
  induction l with
  | nil => intro st _ h2; exact h2
  | cons a t ih =>
      intro st h1 h2
      simp only [List.foldl_cons]
      refine ih _ ?_ ?_
      · show next_scale_image (admScaleDwt W H depth a st.refImg).band_a _ _ (g a) =
          next_scale_image (admScaleDwt W H depth a st.mainImg).band_a _ _ (g a)
        rw [h1]
      · rw [admScaleIter_num, admScaleIter_den, h1, h2]
        exact congrArg (fun z => st.den + z)
          (admScaleStats_self c1sq hc (admScaleDwt W H depth a st.mainImg)
            (admScaleDwt_range W H depth a st.mainImg) a ((st.w + 1) / 2) ((st.h + 1) / 2))

/-- Identical reference and distorted frames, with identical arena residue on
both sides, always yield the exact score 1: every per-scale numerator equals
its denominator, so the clamped totals are equal and the final branch yields
1 both when the denominator is clamped to zero and when it is not. -/
theorem score_eq_one_of_identical (W H depth : ℕ) (c1sq : ℚ) (hc : c1sq ≤ 1)
    (f : ℕ → ℕ → ℤ) (g : ℕ → ℕ → ℕ → ℤ) :
    (ff_adm_process W H depth c1sq f f g g).score = 1 := by
  have hnd := foldl_symmetric W H depth c1sq hc g [0, 1, 2, 3]
    { w := W, h := H, refImg := f, mainImg := f, num := 0, den := 0, scores := [] }
    rfl rfl
  show (if (if ((List.foldl (admScaleIter W H depth c1sq g g)
        { w := W, h := H, refImg := f, mainImg := f, num := 0, den := 0, scores := [] }
        [0, 1, 2, 3]).den : ℚ) < numden_limit W H then (0 : ℚ)
      else ((List.foldl (admScaleIter W H depth c1sq g g)
        { w := W, h := H, refImg := f, mainImg := f, num := 0, den := 0, scores := [] }
        [0, 1, 2, 3]).den : ℚ)) = 0 then (1 : ℚ)
    else (if ((List.foldl (admScaleIter W H depth c1sq g g)
        { w := W, h := H, refImg := f, mainImg := f, num := 0, den := 0, scores := [] }
        [0, 1, 2, 3]).num : ℚ) < numden_limit W H then (0 : ℚ)
      else ((List.foldl (admScaleIter W H depth c1sq g g)
        { w := W, h := H, refImg := f, mainImg := f, num := 0, den := 0, scores := [] }
        [0, 1, 2, 3]).num : ℚ)) /
      (if ((List.foldl (admScaleIter W H depth c1sq g g)
        { w := W, h := H, refImg := f, mainImg := f, num := 0, den := 0, scores := [] }
        [0, 1, 2, 3]).den : ℚ) < numden_limit W H then (0 : ℚ)
      else ((List.foldl (admScaleIter W H depth c1sq g g)
        { w := W, h := H, refImg := f, mainImg := f, num := 0, den := 0, scores := [] }
        [0, 1, 2, 3]).den : ℚ))) = 1
  rw [hnd]
  by_cases h0 : (if ((List.foldl (admScaleIter W H depth c1sq g g)
      { w := W, h := H, refImg := f, mainImg := f, num := 0, den := 0, scores := [] }
      [0, 1, 2, 3]).den : ℚ) < numden_limit W H then (0 : ℚ)
    else ((List.foldl (admScaleIter W H depth c1sq g g)
      { w := W, h := H, refImg := f, mainImg := f, num := 0, den := 0, scores := [] }
      [0, 1, 2, 3]).den : ℚ)) = 0
  · rw [if_pos h0]
  · rw [if_neg h0]
    exact div_self h0

/-- C4 counterexample: `ff_adm_process` performs no validation whatsoever.  A
scale-0 input declared with bit depth 16 — neither 8 nor 10 — is not rejected:
it flows through the `depth <= 8 ? 8bit : 10bit` dispatch into the 10-bit
path and the call returns a fully computed score (here 1, for an all-zero 2x2
pair), contradicting the claim that such inputs are rejected with
`UnsupportedBitDepth` before any computation begins.  The C function likewise
returns `double`, with no error path for shape or stride mismatches. -/
theorem C4_counterexample :
    (ff_adm_process 2 2 16 (9997 / 10000) (fun _ _ => 0) (fun _ _ => 0)
      (fun _ _ _ => 0) (fun _ _ _ => 0)).score = 1 ∧
    ¬((16 : ℕ) = 8 ∨ (16 : ℕ) = 10) :=
  ⟨score_eq_one_of_identical 2 2 16 (9997 / 10000) (by norm_num) _ _, by decide⟩

/-- C4 amended: `ff_adm_process` rejects nothing.  Every bit depth above 8 is
processed through the 10-bit path (depths at most 8 through the 8-bit path),
shape and stride consistency is an unchecked caller obligation, and a score
is always returned. -/
theorem C4_amended (W H depth : ℕ) (hd : 9 ≤ depth) (c1sq : ℚ)
    (refF mainF : ℕ → ℕ → ℤ) (gr gm : ℕ → ℕ → ℕ → ℤ) :
    ff_adm_process W H depth c1sq refF mainF gr gm =
      ff_adm_process W H 10 c1sq refF mainF gr gm := by
  have hiter : admScaleIter W H depth c1sq gr gm = admScaleIter W H 10 c1sq gr gm := by
    funext st scale
    unfold admScaleIter admScaleDwt
    simp only [if_neg (show ¬depth ≤ 8 by omega), if_neg (show ¬(10 : ℕ) ≤ 8 by omega)]
  unfold ff_adm_process
  rw [hiter]

/-- Witness for C4's amended claim at depth 16. -/
theorem C4_amended_witness :
    9 ≤ 16 ∧
    ff_adm_process 2 2 16 (9997 / 10000) (fun _ _ => 1) (fun _ _ => 2)
        (fun _ _ _ => 3) (fun _ _ _ => 4) =
      ff_adm_process 2 2 10 (9997 / 10000) (fun _ _ => 1) (fun _ _ => 2)
        (fun _ _ _ => 3) (fun _ _ _ => 4) :=
  ⟨by norm_num, C4_amended 2 2 16 (by norm_num) (9997 / 10000) (fun _ _ => 1)
    (fun _ _ => 2) (fun _ _ _ => 3) (fun _ _ _ => 4)⟩

/-- C8 amended: an all-zero (fully black) frame pair yields the exact score
1.0 with no division-by-zero fault — but because numerator and denominator
are equal (both reduce to the area-regularizer terms), not because they fall
below the noise floor: for any practical resolution both totals exceed the
noise floor and are not clamped (see the counterexample theorem). -/
theorem C8_zero_score_one (W H depth : ℕ) (c1sq : ℚ) (hc : c1sq ≤ 1)
    (g : ℕ → ℕ → ℕ → ℤ) :
    (ff_adm_process W H depth c1sq (fun _ _ => 0) (fun _ _ => 0) g g).score = 1 :=
  score_eq_one_of_identical W H depth c1sq hc (fun _ _ => 0) g

/-- Witness for C8's amended claim: 4x4 all-zero frames, zeroed residue. -/
theorem C8_zero_score_one_witness :
    (9997 / 10000 : ℚ) ≤ 1 ∧
    (ff_adm_process 4 4 8 (9997 / 10000) (fun _ _ => 0) (fun _ _ => 0)
      (fun _ _ _ => 0) (fun _ _ _ => 0)).score = 1 :=
  ⟨by norm_num, C8_zero_score_one 4 4 8 (9997 / 10000) (by norm_num) (fun _ _ _ => 0)⟩

theorem adm_dwt2_zero (w h : ℕ) :
    adm_dwt2 (fun _ _ => 0) w h =
      { band_a := fun _ _ => 0, band_h := fun _ _ => 0
        band_v := fun _ _ => 0, band_d := fun _ _ => 0 } := by
  unfold adm_dwt2
  refine adm_dwt_band_t.ext ?_ ?_ ?_ ?_ <;> funext i j <;>
    simp [mul_zero, sumZ_zero, shr15_zero, i16_zero]

theorem admScaleDwt_zero (W H depth scale : ℕ) :
    admScaleDwt W H depth scale (fun _ _ => 0) =
      { band_a := fun _ _ => 0, band_h := fun _ _ => 0
        band_v := fun _ _ => 0, band_d := fun _ _ => 0 } := by
  unfold admScaleDwt adm_dwt2_8bit adm_dwt2_10bit adm_dwt2_32bit
  split_ifs <;> exact adm_dwt2_zero W H

theorem next_scale_image_zero (w h : ℕ) :
    next_scale_image (fun _ _ => 0) w h (fun _ _ => 0) = fun _ _ => 0 := by
  funext i j
  unfold next_scale_image
  split_ifs <;> simp [i16_zero]

theorem decouplePixel_zero (c1sq : ℚ) :
    decouplePixel c1sq 0 0 0 0 0 0 = ((0, 0, 0), (0, 0, 0)) := by
  unfold decouplePixel
  simp only
  have hcond : (0 : ℤ) ≤ 0 * 0 + 0 * 0 ∧
      c1sq * ((0 * 0 + 0 * 0 : ℤ) : ℚ) * ((0 * 0 + 0 * 0 : ℤ) : ℚ) ≤
        ((0 * 0 + 0 * 0 : ℤ) : ℚ) * ((0 * 0 + 0 * 0 : ℤ) : ℚ) := by norm_num
  simp only [if_pos hcond]
  norm_num [i16_zero]

theorem adm_sum_cube_zero (w h : ℕ) :
    adm_sum_cube (fun _ _ => 0) w h =
      i16 ((ceilCbrtNat ((h - 2 * borderIdx h) * (w - 2 * borderIdx w)) 32 : ℕ) : ℤ) := by
  unfold adm_sum_cube
  simp only
  rw [@regionFold_congr _ (fun _ _ => 0) _ _
    (fun i _ j _ => by simp [i16_zero, get_cube_zero]), regionFold_zero,
    ceilCbrtInt_zero, zero_add]

theorem admScaleStats_zero (c1sq : ℚ) (scale w h : ℕ) :
    admScaleStats c1sq
      { band_a := fun _ _ => 0, band_h := fun _ _ => 0
        band_v := fun _ _ => 0, band_d := fun _ _ => 0 }
      { band_a := fun _ _ => 0, band_h := fun _ _ => 0
        band_v := fun _ _ => 0, band_d := fun _ _ => 0 } scale w h =
      (3 * i16 ((ceilCbrtNat ((h - 2 * borderIdx h) * (w - 2 * borderIdx w)) 32 : ℕ) : ℤ),
       3 * i16 ((ceilCbrtNat ((h - 2 * borderIdx h) * (w - 2 * borderIdx w)) 32 : ℕ) : ℤ)) := by
  unfold admScaleStats adm_decouple adm_csf adm_cm
  simp only [decouplePixel_zero, mul_zero, shr15_zero, i16_zero, abs_zero,
    adm_cm_thresh_eq_zero, sub_zero, max_self]
  simp only [adm_sum_cube_zero, Prod.mk.injEq]
  constructor <;> ring

/-- One driver iteration on all-zero working images with zero arena residue:
the images stay zero and both accumulators grow by the three
area-regularizer terms of the halved dimensions. -/
theorem admScaleIter_zero (W H depth : ℕ) (c1sq : ℚ) (g : ℕ → ℕ → ℕ → ℤ)
    (scale : ℕ) (hg : g scale = fun _ _ => 0) (st : LoopState)
    (h1 : st.refImg = fun _ _ => 0) (h2 : st.mainImg = fun _ _ => 0) :
    admScaleIter W H depth c1sq g g st scale =
      { w := (st.w + 1) / 2
        h := (st.h + 1) / 2
        refImg := fun _ _ => 0
        mainImg := fun _ _ => 0
        num := st.num + 3 * i16 ((ceilCbrtNat
          ((((st.h + 1) / 2) - 2 * borderIdx ((st.h + 1) / 2)) *
            (((st.w + 1) / 2) - 2 * borderIdx ((st.w + 1) / 2))) 32 : ℕ) : ℤ)
        den := st.den + 3 * i16 ((ceilCbrtNat
          ((((st.h + 1) / 2) - 2 * borderIdx ((st.h + 1) / 2)) *
            (((st.w + 1) / 2) - 2 * borderIdx ((st.w + 1) / 2))) 32 : ℕ) : ℤ)
        scores := st.scores ++
          [(3 * i16 ((ceilCbrtNat
              ((((st.h + 1) / 2) - 2 * borderIdx ((st.h + 1) / 2)) *
                (((st.w + 1) / 2) - 2 * borderIdx ((st.w + 1) / 2))) 32 : ℕ) : ℤ),
            3 * i16 ((ceilCbrtNat
              ((((st.h + 1) / 2) - 2 * borderIdx ((st.h + 1) / 2)) *
                (((st.w + 1) / 2) - 2 * borderIdx ((st.w + 1) / 2))) 32 : ℕ) : ℤ))] } := by
  unfold admScaleIter
  rw [h1, h2, hg, admScaleDwt_zero]
  simp only [admScaleStats_zero, next_scale_image_zero]

/-- C8 counterexample: for the all-zero 4x4 frame pair the summed numerator
and denominator are 12 each — the area-regularizer terms — which is far above
the noise floor `1e-2*16/(1920*1080) ≈ 7.7e-8`, so neither sum is clamped to
zero, contradicting the claim's stated mechanism; the score is still exactly
1 because numerator and denominator are equal. -/
theorem C8_counterexample :
    (((ff_adm_process 4 4 8 (9997 / 10000) (fun _ _ => 0) (fun _ _ => 0)
        (fun _ _ _ => 0) (fun _ _ _ => 0)).scores.map Prod.fst).sum = 12 ∧
      (((ff_adm_process 4 4 8 (9997 / 10000) (fun _ _ => 0) (fun _ _ => 0)
        (fun _ _ _ => 0) (fun _ _ _ => 0)).scores.map Prod.snd).sum = 12)) ∧
    ¬(((((ff_adm_process 4 4 8 (9997 / 10000) (fun _ _ => 0) (fun _ _ => 0)
        (fun _ _ _ => 0) (fun _ _ _ => 0)).scores.map Prod.fst).sum : ℤ) : ℚ) <
      numden_limit 4 4) ∧
    ¬(((((ff_adm_process 4 4 8 (9997 / 10000) (fun _ _ => 0) (fun _ _ => 0)
        (fun _ _ _ => 0) (fun _ _ _ => 0)).scores.map Prod.snd).sum : ℤ) : ℚ) <
      numden_limit 4 4) ∧
    (ff_adm_process 4 4 8 (9997 / 10000) (fun _ _ => 0) (fun _ _ => 0)
        (fun _ _ _ => 0) (fun _ _ _ => 0)).score = 1 := by
  have e1 : admScaleIter 4 4 8 (9997 / 10000) (fun _ _ _ => 0) (fun _ _ _ => 0)
      { w := 4, h := 4, refImg := fun _ _ => 0, mainImg := fun _ _ => 0
        num := 0, den := 0, scores := [] } 0 =
      { w := 2, h := 2, refImg := fun _ _ => 0, mainImg := fun _ _ => 0
        num := 3, den := 3, scores := [(3, 3)] } := by
    rw [admScaleIter_zero 4 4 8 (9997 / 10000) (fun _ _ _ => 0) 0 rfl
      { w := 4, h := 4, refImg := fun _ _ => 0, mainImg := fun _ _ => 0
        num := 0, den := 0, scores := [] } rfl rfl]
    refine LoopState.ext ?_ ?_ ?_ ?_ ?_ ?_ ?_ <;> rfl
  have e2 : admScaleIter 4 4 8 (9997 / 10000) (fun _ _ _ => 0) (fun _ _ _ => 0)
      { w := 2, h := 2, refImg := fun _ _ => 0, mainImg := fun _ _ => 0
        num := 3, den := 3, scores := [(3, 3)] } 1 =
      { w := 1, h := 1, refImg := fun _ _ => 0, mainImg := fun _ _ => 0
        num := 6, den := 6, scores := [(3, 3), (3, 3)] } := by
    rw [admScaleIter_zero 4 4 8 (9997 / 10000) (fun _ _ _ => 0) 1 rfl
      { w := 2, h := 2, refImg := fun _ _ => 0, mainImg := fun _ _ => 0
        num := 3, den := 3, scores := [(3, 3)] } rfl rfl]
    refine LoopState.ext ?_ ?_ ?_ ?_ ?_ ?_ ?_ <;> rfl
  have e3 : admScaleIter 4 4 8 (9997 / 10000) (fun _ _ _ => 0) (fun _ _ _ => 0)
      { w := 1, h := 1, refImg := fun _ _ => 0, mainImg := fun _ _ => 0
        num := 6, den := 6, scores := [(3, 3), (3, 3)] } 2 =
      { w := 1, h := 1, refImg := fun _ _ => 0, mainImg := fun _ _ => 0
        num := 9, den := 9, scores := [(3, 3), (3, 3), (3, 3)] } := by
    rw [admScaleIter_zero 4 4 8 (9997 / 10000) (fun _ _ _ => 0) 2 rfl
      { w := 1, h := 1, refImg := fun _ _ => 0, mainImg := fun _ _ => 0
        num := 6, den := 6, scores := [(3, 3), (3, 3)] } rfl rfl]
    refine LoopState.ext ?_ ?_ ?_ ?_ ?_ ?_ ?_ <;> rfl
  have e4 : admScaleIter 4 4 8 (9997 / 10000) (fun _ _ _ => 0) (fun _ _ _ => 0)
      { w := 1, h := 1, refImg := fun _ _ => 0, mainImg := fun _ _ => 0
        num := 9, den := 9, scores := [(3, 3), (3, 3), (3, 3)] } 3 =
      { w := 1, h := 1, refImg := fun _ _ => 0, mainImg := fun _ _ => 0
        num := 12, den := 12, scores := [(3, 3), (3, 3), (3, 3), (3, 3)] } := by
    rw [admScaleIter_zero 4 4 8 (9997 / 10000) (fun _ _ _ => 0) 3 rfl
      { w := 1, h := 1, refImg := fun _ _ => 0, mainImg := fun _ _ => 0
        num := 9, den := 9, scores := [(3, 3), (3, 3), (3, 3)] } rfl rfl]
    refine LoopState.ext ?_ ?_ ?_ ?_ ?_ ?_ ?_ <;> rfl
  have hscores : (ff_adm_process 4 4 8 (9997 / 10000) (fun _ _ => 0) (fun _ _ => 0)
      (fun _ _ _ => 0) (fun _ _ _ => 0)).scores =
      [(3, 3), (3, 3), (3, 3), (3, 3)] := by
    show (List.foldl (admScaleIter 4 4 8 (9997 / 10000) (fun _ _ _ => 0) (fun _ _ _ => 0))
      { w := 4, h := 4, refImg := fun _ _ => 0, mainImg := fun _ _ => 0
        num := 0, den := 0, scores := [] } [0, 1, 2, 3]).scores = _
    simp only [List.foldl_cons, List.foldl_nil]
    rw [e1, e2, e3, e4]
  refine ⟨⟨?_, ?_⟩, ?_, ?_,
    score_eq_one_of_identical 4 4 8 (9997 / 10000) (by norm_num) (fun _ _ => 0)
      (fun _ _ _ => 0)⟩
  · rw [hscores]; decide
  · rw [hscores]; decide
  · rw [hscores]
    have h12 : (([(3, 3), (3, 3), (3, 3), (3, 3)] : List (ℤ × ℤ)).map Prod.fst).sum = 12 := by
      decide
    rw [h12]
    norm_num [numden_limit]
  · rw [hscores]
    have h12 : (([(3, 3), (3, 3), (3, 3), (3, 3)] : List (ℤ × ℤ)).map Prod.snd).sum = 12 := by
      decide
    rw [h12]
    norm_num [numden_limit]

theorem sumZ_le_sumZ {f g : ℕ → ℤ} : ∀ {n}, (∀ j < n, f j ≤ g j) → sumZ f n ≤ sumZ g n := by
  intro n
  induction n with
  | zero => intro _; exact le_refl 0
  | succ m ih =>
      intro hle
      have h1 := ih (fun j hj => hle j (by omega))
      have h2 := hle m (by omega)
      simp only [sumZ]
      omega

/-- Under no 32-bit overflow and with every sample of magnitude at most
32767, the wrapping cube accumulation of `adm_sum_cube` equals the exact sum
of cubed magnitudes over the truncated-border interior, and the result is the
`int16_t` store of `ceil(cbrt(sum)) + ceil(cbrt(area/32))`. -/
theorem adm_sum_cube_eq_exact (x : ℕ → ℕ → ℤ) (w h : ℕ)
    (hx : ∀ i j, |x i j| ≤ 32767)
    (hsum : sumZ (fun a => sumZ (fun b =>
        |x (borderIdx h + a) (borderIdx w + b)| ^ 3) (w - 2 * borderIdx w))
      (h - 2 * borderIdx h) < 2 ^ 31) :
    adm_sum_cube x w h =
      i16 (ceilCbrtInt (sumZ (fun a => sumZ (fun b =>
          |x (borderIdx h + a) (borderIdx w + b)| ^ 3) (w - 2 * borderIdx w))
        (h - 2 * borderIdx h)) +
        ((ceilCbrtNat ((h - 2 * borderIdx h) * (w - 2 * borderIdx w)) 32 : ℕ) : ℤ)) := by
  have hnn : ∀ a, ∀ b, (0 : ℤ) ≤ |x (borderIdx h + a) (borderIdx w + b)| ^ 3 :=
    fun a b => pow_nonneg (abs_nonneg _) 3
  have hrow_nn : ∀ a, 0 ≤ sumZ (fun b =>
      |x (borderIdx h + a) (borderIdx w + b)| ^ 3) (w - 2 * borderIdx w) :=
    fun a => sumZ_nonneg (fun b _ => hnn a b)
  have helt_le : ∀ a < h - 2 * borderIdx h, ∀ b < w - 2 * borderIdx w,
      |x (borderIdx h + a) (borderIdx w + b)| ^ 3 ≤
        sumZ (fun a => sumZ (fun b =>
          |x (borderIdx h + a) (borderIdx w + b)| ^ 3) (w - 2 * borderIdx w))
        (h - 2 * borderIdx h) := by
    intro a ha b hb
    calc |x (borderIdx h + a) (borderIdx w + b)| ^ 3 ≤
        sumZ (fun b => |x (borderIdx h + a) (borderIdx w + b)| ^ 3)
          (w - 2 * borderIdx w) := sumZ_term_le b (fun k _ => hnn a k) hb
      _ ≤ _ := sumZ_term_le a (fun k _ => hrow_nn k) ha
  have helt : ∀ a < h - 2 * borderIdx h, ∀ b < w - 2 * borderIdx w,
      get_cube |i16 (x (borderIdx h + a) (borderIdx w + b))| =
        |x (borderIdx h + a) (borderIdx w + b)| ^ 3 := by
    intro a ha b hb
    have hv1 : -32767 ≤ x (borderIdx h + a) (borderIdx w + b) ∧
        x (borderIdx h + a) (borderIdx w + b) ≤ 32767 := abs_le.mp (hx _ _)
    have hv2 : |x (borderIdx h + a) (borderIdx w + b)| ≤ 32767 := hx _ _
    have hv3 : (0 : ℤ) ≤ |x (borderIdx h + a) (borderIdx w + b)| := abs_nonneg _
    have h0 : (0 : ℤ) ≤ |x (borderIdx h + a) (borderIdx w + b)| ^ 3 :=
      pow_nonneg (abs_nonneg _) 3
    have hlt : |x (borderIdx h + a) (borderIdx w + b)| ^ 3 < 2 ^ 31 :=
      lt_of_le_of_lt (helt_le a ha b hb) hsum
    unfold get_cube
    rw [show i16 (x (borderIdx h + a) (borderIdx w + b)) =
        x (borderIdx h + a) (borderIdx w + b) from i16_eq_self (by omega) (by omega),
      show i16 |x (borderIdx h + a) (borderIdx w + b)| =
        |x (borderIdx h + a) (borderIdx w + b)| from i16_eq_self (by omega) (by omega),
      show |x (borderIdx h + a) (borderIdx w + b)| *
          |x (borderIdx h + a) (borderIdx w + b)| *
          |x (borderIdx h + a) (borderIdx w + b)| =
          |x (borderIdx h + a) (borderIdx w + b)| ^ 3 from by ring]
    exact wrap32_eq_self (by omega) hlt
  unfold adm_sum_cube
  simp only
  rw [@regionFold_congr _ (fun a b =>
      |x (borderIdx h + a) (borderIdx w + b)| ^ 3) _ _ (fun a ha b hb => helt a ha b hb),
    regionFold_eq_exact (fun a _ b _ => hnn a b) hsum]

set_option maxRecDepth 40000 in
/-- C3 counterexample: at `w = h = 10` with a single sample of value 2 in the
top-left corner, the source computes the border as
`(int)(10 * 0.1 - 0.5) = 0` — so the corner lies inside the pooled interior —
while the claim's `ceil(10 * 0.1) = 1` border excludes it; the pooled results
differ (4 versus 2). -/
theorem C3_counterexample :
    adm_sum_cube (fun i j => if i = 0 ∧ j = 0 then 2 else 0) 10 10 ≠
      adm_sum_cube_spec (fun i j => if i = 0 ∧ j = 0 then 2 else 0) 10 10 := by
  have hceil : (⌈((10 : ℕ) : ℚ) / 10⌉ : ℤ) = 1 := by norm_num
  unfold adm_sum_cube_spec
  simp only [hceil]
  decide

set_option maxRecDepth 40000 in
/-- C3 amended: the interior region uses the truncated border
`(int)(w * 0.1 - 0.5)` (0 for `w = 10`, not `ceil(w * 0.1)`), the cube sum
accumulates in wrapping 32-bit arithmetic, and the result is truncated to the
`int16_t` return type; when nothing overflows, the result is exactly
`ceil(cbrt(sum of interior |x|^3)) + ceil(cbrt(area/32))`, with both terms
characterized as least integers. -/
theorem C3_amended (x : ℕ → ℕ → ℤ) (w h : ℕ)
    (hx : ∀ i j, |x i j| ≤ 32767)
    (hsum : sumZ (fun a => sumZ (fun b =>
        |x (borderIdx h + a) (borderIdx w + b)| ^ 3) (w - 2 * borderIdx w))
      (h - 2 * borderIdx h) < 2 ^ 31)
    (hres : ceilCbrtInt (sumZ (fun a => sumZ (fun b =>
        |x (borderIdx h + a) (borderIdx w + b)| ^ 3) (w - 2 * borderIdx w))
      (h - 2 * borderIdx h)) +
      ((ceilCbrtNat ((h - 2 * borderIdx h) * (w - 2 * borderIdx w)) 32 : ℕ) : ℤ) ≤ 32767) :
    adm_sum_cube x w h =
      ceilCbrtInt (sumZ (fun a => sumZ (fun b =>
          |x (borderIdx h + a) (borderIdx w + b)| ^ 3) (w - 2 * borderIdx w))
        (h - 2 * borderIdx h)) +
      ((ceilCbrtNat ((h - 2 * borderIdx h) * (w - 2 * borderIdx w)) 32 : ℕ) : ℤ) ∧
    (sumZ (fun a => sumZ (fun b =>
        |x (borderIdx h + a) (borderIdx w + b)| ^ 3) (w - 2 * borderIdx w))
      (h - 2 * borderIdx h) ≤
      (ceilCbrtInt (sumZ (fun a => sumZ (fun b =>
          |x (borderIdx h + a) (borderIdx w + b)| ^ 3) (w - 2 * borderIdx w))
        (h - 2 * borderIdx h))) ^ 3 ∧
      ∀ y : ℤ, y < ceilCbrtInt (sumZ (fun a => sumZ (fun b =>
          |x (borderIdx h + a) (borderIdx w + b)| ^ 3) (w - 2 * borderIdx w))
        (h - 2 * borderIdx h)) →
        y ^ 3 < sumZ (fun a => sumZ (fun b =>
          |x (borderIdx h + a) (borderIdx w + b)| ^ 3) (w - 2 * borderIdx w))
        (h - 2 * borderIdx h)) ∧
    ((h - 2 * borderIdx h) * (w - 2 * borderIdx w) ≤
      32 * (ceilCbrtNat ((h - 2 * borderIdx h) * (w - 2 * borderIdx w)) 32) ^ 3 ∧
      ∀ y : ℕ, y < ceilCbrtNat ((h - 2 * borderIdx h) * (w - 2 * borderIdx w)) 32 →
        32 * y ^ 3 < (h - 2 * borderIdx h) * (w - 2 * borderIdx w)) := by
  have hS_nn : 0 ≤ sumZ (fun a => sumZ (fun b =>
      |x (borderIdx h + a) (borderIdx w + b)| ^ 3) (w - 2 * borderIdx w))
      (h - 2 * borderIdx h) :=
    sumZ_nonneg (fun a _ => sumZ_nonneg (fun b _ => pow_nonneg (abs_nonneg _) 3))
  refine ⟨?_, ⟨ceilCbrtInt_sat _, fun y hy => ceilCbrtInt_min _ hy⟩,
    ceilCbrtNat_sat _ 32 (by norm_num), fun y hy => ceilCbrtNat_min _ 32 hy⟩
  rw [adm_sum_cube_eq_exact x w h hx hsum]
  exact i16_eq_self
    (le_trans (by norm_num)
      (add_nonneg (ceilCbrtInt_nonneg hS_nn) (Int.ofNat_nonneg _))) hres

/-- Witness for C3's amended claim: the constant band of value 1 at `1x1`. -/
theorem C3_amended_witness :
    ((∀ i j : ℕ, |(fun _ _ => (1 : ℤ)) i j| ≤ 32767) ∧
      sumZ (fun a => sumZ (fun b =>
        |(fun _ _ => (1 : ℤ)) (borderIdx 1 + a) (borderIdx 1 + b)| ^ 3)
        (1 - 2 * borderIdx 1)) (1 - 2 * borderIdx 1) < 2 ^ 31) ∧
    adm_sum_cube (fun _ _ => (1 : ℤ)) 1 1 =
      ceilCbrtInt (sumZ (fun a => sumZ (fun b =>
          |(fun _ _ => (1 : ℤ)) (borderIdx 1 + a) (borderIdx 1 + b)| ^ 3)
        (1 - 2 * borderIdx 1)) (1 - 2 * borderIdx 1)) +
      ((ceilCbrtNat ((1 - 2 * borderIdx 1) * (1 - 2 * borderIdx 1)) 32 : ℕ) : ℤ) :=
  ⟨⟨fun i j => by norm_num, by decide⟩,
   (C3_amended (fun _ _ => (1 : ℤ)) 1 1 (fun i j => by norm_num) (by decide) (by decide)).1⟩

set_option maxRecDepth 100000 in
/-- C9 counterexample: scaling the single-sample band of magnitude 1000 by
`c = 1.291 > 1` gives magnitude 1291, whose cube `1291^3 = 2151685171`
overflows the 32-bit `int` accumulator and wraps to a negative sum, so the
pooled result drops from 1001 to -1288: pooling is not monotone under
magnitude scaling. -/
theorem C9_counterexample :
    (1 : ℚ) < 1291 / 1000 ∧
    ((1291 : ℤ) : ℚ) = (1291 / 1000) * ((1000 : ℤ) : ℚ) ∧
    adm_sum_cube (fun _ _ => 1291) 1 1 < adm_sum_cube (fun _ _ => 1000) 1 1 := by
  refine ⟨by norm_num, by norm_num, ?_⟩
  decide

/-- C9 amended: pooling is monotone under magnitude scaling by `c > 1`
provided the scaled band does not overflow: every scaled magnitude fits in
`int16_t`, the scaled interior cube sum stays below `2^31`, and the
area-regularizer term leaves room in the `int16_t` result. -/
theorem C9_amended (x y : ℕ → ℕ → ℤ) (w h : ℕ) (c : ℚ) (hc : 1 < c)
    (hscale : ∀ i j, ((|y i j| : ℤ) : ℚ) = c * ((|x i j| : ℤ) : ℚ))
    (hyb : ∀ i j, |y i j| ≤ 32767)
    (hysum : sumZ (fun a => sumZ (fun b =>
        |y (borderIdx h + a) (borderIdx w + b)| ^ 3) (w - 2 * borderIdx w))
      (h - 2 * borderIdx h) < 2 ^ 31)
    (harea : ((ceilCbrtNat ((h - 2 * borderIdx h) * (w - 2 * borderIdx w)) 32 : ℕ) : ℤ) ≤
      31476) :
    adm_sum_cube x w h ≤ adm_sum_cube y w h := by
  have habs : ∀ i j, |x i j| ≤ |y i j| := by
    intro i j
    have h1 := hscale i j
    have h2 : ((|x i j| : ℤ) : ℚ) ≤ c * ((|x i j| : ℤ) : ℚ) := by
      have h3 : (0 : ℚ) ≤ ((|x i j| : ℤ) : ℚ) := by
        exact_mod_cast abs_nonneg (x i j)
      nlinarith
    have h4 : ((|x i j| : ℤ) : ℚ) ≤ ((|y i j| : ℤ) : ℚ) := by rw [h1]; exact h2
    exact_mod_cast h4
  have hxb : ∀ i j, |x i j| ≤ 32767 := fun i j => le_trans (habs i j) (hyb i j)
  have hcube_le : ∀ i j, |x i j| ^ 3 ≤ |y i j| ^ 3 := by
    intro i j
    exact pow_le_pow_left₀ (abs_nonneg _) (habs i j) 3
  have hSle : sumZ (fun a => sumZ (fun b =>
        |x (borderIdx h + a) (borderIdx w + b)| ^ 3) (w - 2 * borderIdx w))
      (h - 2 * borderIdx h) ≤
      sumZ (fun a => sumZ (fun b =>
        |y (borderIdx h + a) (borderIdx w + b)| ^ 3) (w - 2 * borderIdx w))
      (h - 2 * borderIdx h) :=
    sumZ_le_sumZ (fun a _ => sumZ_le_sumZ (fun b _ => hcube_le _ _))
  have hxsum : sumZ (fun a => sumZ (fun b =>
        |x (borderIdx h + a) (borderIdx w + b)| ^ 3) (w - 2 * borderIdx w))
      (h - 2 * borderIdx h) < 2 ^ 31 := lt_of_le_of_lt hSle hysum
  rw [adm_sum_cube_eq_exact x w h hxb hxsum, adm_sum_cube_eq_exact y w h hyb hysum]
  have hSx_nn : 0 ≤ sumZ (fun a => sumZ (fun b =>
      |x (borderIdx h + a) (borderIdx w + b)| ^ 3) (w - 2 * borderIdx w))
      (h - 2 * borderIdx h) :=
    sumZ_nonneg (fun a _ => sumZ_nonneg (fun b _ => pow_nonneg (abs_nonneg _) 3))
  have hSy_nn : 0 ≤ sumZ (fun a => sumZ (fun b =>
      |y (borderIdx h + a) (borderIdx w + b)| ^ 3) (w - 2 * borderIdx w))
      (h - 2 * borderIdx h) := le_trans hSx_nn hSle
  have hmono := ceilCbrtInt_mono hSle
  have hccx_nn := ceilCbrtInt_nonneg hSx_nn
  have hccy_nn := ceilCbrtInt_nonneg hSy_nn
  have hccx_ub : ceilCbrtInt (sumZ (fun a => sumZ (fun b =>
      |x (borderIdx h + a) (borderIdx w + b)| ^ 3) (w - 2 * borderIdx w))
      (h - 2 * borderIdx h)) ≤ 1291 :=
    ceilCbrtInt_le (by nlinarith)
  have hccy_ub : ceilCbrtInt (sumZ (fun a => sumZ (fun b =>
      |y (borderIdx h + a) (borderIdx w + b)| ^ 3) (w - 2 * borderIdx w))
      (h - 2 * borderIdx h)) ≤ 1291 :=
    ceilCbrtInt_le (by nlinarith)
  have harea_nn : (0 : ℤ) ≤
      ((ceilCbrtNat ((h - 2 * borderIdx h) * (w - 2 * borderIdx w)) 32 : ℕ) : ℤ) :=
    Int.ofNat_nonneg _
  rw [i16_eq_self (by omega) (by omega), i16_eq_self (by omega) (by omega)]
  omega

/-- Witness for C9's amended claim: bands of constant magnitude 1 and 2 at
`1x1`, scaling factor 2. -/
theorem C9_amended_witness :
    ((1 : ℚ) < 2 ∧ (∀ i j : ℕ, ((|(fun _ _ => (2 : ℤ)) i j| : ℤ) : ℚ) =
        2 * ((|(fun _ _ => (1 : ℤ)) i j| : ℤ) : ℚ)) ∧
      (∀ i j : ℕ, |(fun _ _ => (2 : ℤ)) i j| ≤ 32767) ∧
      sumZ (fun a => sumZ (fun b =>
        |(fun _ _ => (2 : ℤ)) (borderIdx 1 + a) (borderIdx 1 + b)| ^ 3)
        (1 - 2 * borderIdx 1)) (1 - 2 * borderIdx 1) < 2 ^ 31 ∧
      ((ceilCbrtNat ((1 - 2 * borderIdx 1) * (1 - 2 * borderIdx 1)) 32 : ℕ) : ℤ) ≤ 31476) ∧
    adm_sum_cube (fun _ _ => (1 : ℤ)) 1 1 ≤ adm_sum_cube (fun _ _ => (2 : ℤ)) 1 1 :=
  ⟨⟨by norm_num, fun i j => by norm_num, fun i j => by norm_num, by decide, by decide⟩,
   C9_amended (fun _ _ => (1 : ℤ)) (fun _ _ => (2 : ℤ)) 1 1 2 (by norm_num)
     (fun i j => by norm_num) (fun i j => by norm_num) (by decide) (by decide)⟩

theorem dwt2_lo_int_eq : dwt2_db2_coeffs_lo_int = fun i =>
    if i = 0 then 15826 else if i = 1 then 27411 else if i = 2 then 7345
    else if i = 3 then (-4240 : ℤ) else 0 := by
  funext i
  unfold dwt2_db2_coeffs_lo_int dwt2_db2_coeffs_lo
  rcases i with _ | _ | _ | _ | n
  · rw [@round_eq_of ((0.482962913144690 : ℚ) * 2 ^ 15) 15826 (by norm_num) (by norm_num)]
    norm_num
  · rw [@round_eq_of ((0.836516303737469 : ℚ) * 2 ^ 15) 27411 (by norm_num) (by norm_num)]
    norm_num
  · rw [@round_eq_of ((0.224143868041857 : ℚ) * 2 ^ 15) 7345 (by norm_num) (by norm_num)]
    norm_num
  · rw [@round_eq_of ((-0.129409522550921 : ℚ) * 2 ^ 15) (-4240) (by norm_num) (by norm_num)]
    norm_num
  · simp only [if_neg (show ¬n + 4 = 0 by omega), if_neg (show ¬n + 4 = 1 by omega),
      if_neg (show ¬n + 4 = 2 by omega), if_neg (show ¬n + 4 = 3 by omega)]
    show round (dwt2_db2_coeffs_lo (n + 4) * 2 ^ 15) = 0
    rw [show dwt2_db2_coeffs_lo (n + 4) = 0 from rfl, zero_mul]
    exact round_zero

theorem dwt2_hi_int_eq : dwt2_db2_coeffs_hi_int = fun i =>
    if i = 0 then -4240 else if i = 1 then -7345 else if i = 2 then 27411
    else if i = 3 then (-15826 : ℤ) else 0 := by
  funext i
  unfold dwt2_db2_coeffs_hi_int dwt2_db2_coeffs_hi
  rcases i with _ | _ | _ | _ | n
  · rw [@round_eq_of ((-0.129409522550921 : ℚ) * 2 ^ 15) (-4240) (by norm_num) (by norm_num)]
    norm_num
  · rw [@round_eq_of ((-0.224143868041857 : ℚ) * 2 ^ 15) (-7345) (by norm_num) (by norm_num)]
    norm_num
  · rw [@round_eq_of ((0.836516303737469 : ℚ) * 2 ^ 15) 27411 (by norm_num) (by norm_num)]
    norm_num
  · rw [@round_eq_of ((-0.482962913144690 : ℚ) * 2 ^ 15) (-15826) (by norm_num) (by norm_num)]
    norm_num
  · simp only [if_neg (show ¬n + 4 = 0 by omega), if_neg (show ¬n + 4 = 1 by omega),
      if_neg (show ¬n + 4 = 2 by omega), if_neg (show ¬n + 4 = 3 by omega)]
    show round (dwt2_db2_coeffs_hi (n + 4) * 2 ^ 15) = 0
    rw [show dwt2_db2_coeffs_hi (n + 4) = 0 from rfl, zero_mul]
    exact round_zero

theorem rfactor_eq : rfactor = fun scale theta =>
    if scale = 0 then (if theta = 2 then 193 else 570)
    else if scale = 1 then (if theta = 2 then 469 else 1048)
    else if scale = 2 then (if theta = 2 then 799 else 1421)
    else if scale = 3 then (if theta = 2 then (1026 : ℤ) else 1497)
    else 0 := by
  funext scale theta
  unfold rfactor
  by_cases ht : theta = 2
  · simp only [if_pos ht]
    rcases scale with _ | _ | _ | _ | n
    · exact round_eq_of (by norm_num [Qtab]) (by norm_num [Qtab])
    · exact round_eq_of (by norm_num [Qtab]) (by norm_num [Qtab])
    · exact round_eq_of (by norm_num [Qtab]) (by norm_num [Qtab])
    · exact round_eq_of (by norm_num [Qtab]) (by norm_num [Qtab])
    · rw [show Qtab (n + 4) 1 = 0 from rfl]
      simp only [if_neg (show ¬n + 4 = 0 by omega), if_neg (show ¬n + 4 = 1 by omega),
        if_neg (show ¬n + 4 = 2 by omega), if_neg (show ¬n + 4 = 3 by omega)]
      rw [show (1 / (0 : ℚ)) * 2 ^ 15 = 0 by norm_num]
      exact round_zero
  · simp only [if_neg ht]
    rcases scale with _ | _ | _ | _ | n
    · exact round_eq_of (by norm_num [Qtab]) (by norm_num [Qtab])
    · exact round_eq_of (by norm_num [Qtab]) (by norm_num [Qtab])
    · exact round_eq_of (by norm_num [Qtab]) (by norm_num [Qtab])
    · exact round_eq_of (by norm_num [Qtab]) (by norm_num [Qtab])
    · rw [show Qtab (n + 4) 0 = 0 from rfl]
      simp only [if_neg (show ¬n + 4 = 0 by omega), if_neg (show ¬n + 4 = 1 by omega),
        if_neg (show ¬n + 4 = 2 by omega), if_neg (show ¬n + 4 = 3 by omega)]
      rw [show (1 / (0 : ℚ)) * 2 ^ 15 = 0 by norm_num]
      exact round_zero

theorem adm_sum_cube_eq_of_elt_region {x y : ℕ → ℕ → ℤ} (w h : ℕ)
    (helt : ∀ a < h - 2 * borderIdx h, ∀ b < w - 2 * borderIdx w,
      get_cube |i16 (x (borderIdx h + a) (borderIdx w + b))| =
        get_cube |i16 (y (borderIdx h + a) (borderIdx w + b))|) :
    adm_sum_cube x w h = adm_sum_cube y w h := by
  unfold adm_sum_cube
  simp only
  rw [regionFold_congr (fun a ha b hb => helt a ha b hb)]

/-- On a 1x1 working region the per-scale statistics depend only on the four
band values at (0, 0): both quads may be replaced by constant quads holding
those values. -/
theorem admScaleStats_1x1 (c : ℚ) (q1 q2 : adm_dwt_band_t) (scale : ℕ) :
    admScaleStats c q1 q2 scale 1 1 =
      admScaleStats c
        { band_a := fun _ _ => 0, band_h := fun _ _ => q1.band_h 0 0
          band_v := fun _ _ => q1.band_v 0 0, band_d := fun _ _ => q1.band_d 0 0 }
        { band_a := fun _ _ => 0, band_h := fun _ _ => q2.band_h 0 0
          band_v := fun _ _ => q2.band_v 0 0, band_d := fun _ _ => q2.band_d 0 0 }
        scale 1 1 := by
  have hb : borderIdx 1 = 0 := by decide
  unfold admScaleStats adm_decouple adm_csf adm_cm
  simp only [adm_cm_thresh_eq_zero, sub_zero]
  refine congrArg₂ Prod.mk ?_ ?_ <;>
    refine congrArg₂ HAdd.hAdd (congrArg₂ HAdd.hAdd ?_ ?_) ?_ <;>
    refine adm_sum_cube_eq_of_elt_region 1 1 ?_
  all_goals
    intro a ha b hb2
    rw [hb] at ha hb2
    have ha0 : a = 0 := by omega
    have hb0 : b = 0 := by omega
    subst ha0
    subst hb0
    simp [hb]

/-- The four band values at (0, 0) of the DWT of the constant-100 2x2 frame. -/
theorem c7_q0 :
    (adm_dwt2 (fun _ _ => (100 : ℤ)) 2 2).band_a 0 0 = 199 ∧
    (adm_dwt2 (fun _ _ => (100 : ℤ)) 2 2).band_h 0 0 = 0 ∧
    (adm_dwt2 (fun _ _ => (100 : ℤ)) 2 2).band_v 0 0 = 0 ∧
    (adm_dwt2 (fun _ _ => (100 : ℤ)) 2 2).band_d 0 0 = 0 := by
  unfold adm_dwt2
  rw [dwt2_lo_int_eq, dwt2_hi_int_eq]
  decide

/-- Scale-1 reference read of the identical constant-100 pair in the exact
layout: the matrix `[[a, r1], [b, r17]] = [[199, 0], [199, 0]]`. -/
theorem c7r_q1r :
    (adm_dwt2 (fun i j => if i = 0 then (if j = 0 then (199 : ℤ) else 0)
        else (if j = 0 then 199 else 0)) 2 2).band_a 0 0 = 235 ∧
    (adm_dwt2 (fun i j => if i = 0 then (if j = 0 then (199 : ℤ) else 0)
        else (if j = 0 then 199 else 0)) 2 2).band_h 0 0 = 0 ∧
    (adm_dwt2 (fun i j => if i = 0 then (if j = 0 then (199 : ℤ) else 0)
        else (if j = 0 then 199 else 0)) 2 2).band_v 0 0 = -63 ∧
    (adm_dwt2 (fun i j => if i = 0 then (if j = 0 then (199 : ℤ) else 0)
        else (if j = 0 then 199 else 0)) 2 2).band_d 0 0 = 0 := by
  unfold adm_dwt2
  rw [dwt2_lo_int_eq, dwt2_hi_int_eq]
  decide

/-- Scale-1 distorted read: `[[b, r17], [A, r33]] = [[199, 0], [235, 500]]`,
with `A = 235` the just-written reference approximation. -/
theorem c7r_q1m :
    (adm_dwt2 (fun i j => if i = 0 then (if j = 0 then (199 : ℤ) else 0)
        else (if j = 0 then 235 else 500)) 2 2).band_a 0 0 = 419 ∧
    (adm_dwt2 (fun i j => if i = 0 then (if j = 0 then (199 : ℤ) else 0)
        else (if j = 0 then 235 else 500)) 2 2).band_h 0 0 = 71 ∧
    (adm_dwt2 (fun i j => if i = 0 then (if j = 0 then (199 : ℤ) else 0)
        else (if j = 0 then 235 else 500)) 2 2).band_v 0 0 = -4 ∧
    (adm_dwt2 (fun i j => if i = 0 then (if j = 0 then (199 : ℤ) else 0)
        else (if j = 0 then 235 else 500)) 2 2).band_d 0 0 = 23 := by
  unfold adm_dwt2
  rw [dwt2_lo_int_eq, dwt2_hi_int_eq]
  decide

theorem c7r_q2r :
    (adm_dwt2 (fun i j => if i = 0 then (if j = 0 then (235 : ℤ) else 0)
        else (if j = 0 then 419 else 0)) 2 2).band_a 0 0 = 366 ∧
    (adm_dwt2 (fun i j => if i = 0 then (if j = 0 then (235 : ℤ) else 0)
        else (if j = 0 then 419 else 0)) 2 2).band_h 0 0 = 34 ∧
    (adm_dwt2 (fun i j => if i = 0 then (if j = 0 then (235 : ℤ) else 0)
        else (if j = 0 then 419 else 0)) 2 2).band_v 0 0 = -99 ∧
    (adm_dwt2 (fun i j => if i = 0 then (if j = 0 then (235 : ℤ) else 0)
        else (if j = 0 then 419 else 0)) 2 2).band_d 0 0 = -10 := by
  unfold adm_dwt2
  rw [dwt2_lo_int_eq, dwt2_hi_int_eq]
  decide

theorem c7r_q2m :
    (adm_dwt2 (fun i j => if i = 0 then (if j = 0 then (419 : ℤ) else 0)
        else (if j = 0 then 366 else 500)) 2 2).band_a 0 0 = 635 ∧
    (adm_dwt2 (fun i j => if i = 0 then (if j = 0 then (419 : ℤ) else 0)
        else (if j = 0 then 366 else 500)) 2 2).band_h 0 0 = 54 ∧
    (adm_dwt2 (fun i j => if i = 0 then (if j = 0 then (419 : ℤ) else 0)
        else (if j = 0 then 366 else 500)) 2 2).band_v 0 0 = -62 ∧
    (adm_dwt2 (fun i j => if i = 0 then (if j = 0 then (419 : ℤ) else 0)
        else (if j = 0 then 366 else 500)) 2 2).band_d 0 0 = 27 := by
  unfold adm_dwt2
  rw [dwt2_lo_int_eq, dwt2_hi_int_eq]
  decide

theorem c7r_q3r :
    (adm_dwt2 (fun i j => if i = 0 then (if j = 0 then (366 : ℤ) else 0)
        else (if j = 0 then 635 else 0)) 2 2).band_a 0 0 = 562 ∧
    (adm_dwt2 (fun i j => if i = 0 then (if j = 0 then (366 : ℤ) else 0)
        else (if j = 0 then 635 else 0)) 2 2).band_h 0 0 = 50 ∧
    (adm_dwt2 (fun i j => if i = 0 then (if j = 0 then (366 : ℤ) else 0)
        else (if j = 0 then 635 else 0)) 2 2).band_v 0 0 = -151 ∧
    (adm_dwt2 (fun i j => if i = 0 then (if j = 0 then (366 : ℤ) else 0)
        else (if j = 0 then 635 else 0)) 2 2).band_d 0 0 = -14 := by
  unfold adm_dwt2
  rw [dwt2_lo_int_eq, dwt2_hi_int_eq]
  decide

theorem c7r_q3m :
    (adm_dwt2 (fun i j => if i = 0 then (if j = 0 then (635 : ℤ) else 0)
        else (if j = 0 then 562 else 500)) 2 2).band_a 0 0 = 881 ∧
    (adm_dwt2 (fun i j => if i = 0 then (if j = 0 then (635 : ℤ) else 0)
        else (if j = 0 then 562 else 500)) 2 2).band_h 0 0 = 50 ∧
    (adm_dwt2 (fun i j => if i = 0 then (if j = 0 then (635 : ℤ) else 0)
        else (if j = 0 then 562 else 500)) 2 2).band_v 0 0 = -128 ∧
    (adm_dwt2 (fun i j => if i = 0 then (if j = 0 then (635 : ℤ) else 0)
        else (if j = 0 then 562 else 500)) 2 2).band_d 0 0 = 28 := by
  unfold adm_dwt2
  rw [dwt2_lo_int_eq, dwt2_hi_int_eq]
  decide

theorem c7r_dpx1 : decouplePixel (9997 / 10000) 0 (-63) 0 71 (-4) 23 =
    ((0, -4, 0), (71, 1, 23)) := by
  unfold decouplePixel
  have hc1 : ⌈(4 : ℚ) / 62999999999999999999999999999999⌉ = 1 :=
    ceil_eq_of (by norm_num) (by norm_num)
  norm_num [clamp01, eps, i16, Int.ceil_neg, Int.floor_ofNat, hc1]

theorem c7r_dpx2 : decouplePixel (9997 / 10000) 34 (-99) (-10) 54 (-62) 27 =
    ((34, -62, 0), (20, 1, 27)) := by
  unfold decouplePixel
  have hc1 : ⌈(62 : ℚ) / 98999999999999999999999999999999⌉ = 1 :=
    ceil_eq_of (by norm_num) (by norm_num)
  norm_num [clamp01, eps, i16, Int.ceil_neg, Int.floor_ofNat, hc1]

theorem c7r_dpx3 : decouplePixel (9997 / 10000) 50 (-151) (-14) 50 (-128) 28 =
    ((50, -128, 0), (1, 1, 28)) := by
  unfold decouplePixel
  have hc1 : ⌈(2500000000000000000000000000000000 : ℚ) /
      50000000000000000000000000000001⌉ = 50 :=
    ceil_eq_of (by norm_num) (by norm_num)
  have hc2 : ⌈(50 : ℚ) / 50000000000000000000000000000001⌉ = 1 :=
    ceil_eq_of (by norm_num) (by norm_num)
  have hc3 : ⌈(128 : ℚ) / 150999999999999999999999999999999⌉ = 1 :=
    ceil_eq_of (by norm_num) (by norm_num)
  norm_num [clamp01, eps, i16, Int.ceil_neg, Int.floor_ofNat, hc1, hc2, hc3]

theorem c7r_stats1 : admScaleStats (9997 / 10000)
    { band_a := fun _ _ => 0, band_h := fun _ _ => (0 : ℤ)
      band_v := fun _ _ => -63, band_d := fun _ _ => 0 }
    { band_a := fun _ _ => 0, band_h := fun _ _ => (71 : ℤ)
      band_v := fun _ _ => -4, band_d := fun _ _ => 23 } 1 1 1 = (4, 6) := by
  unfold admScaleStats adm_decouple adm_csf adm_cm
  simp only [c7r_dpx1, rfactor_eq, adm_cm_thresh_eq_zero, sub_zero]
  decide

theorem c7r_stats2 : admScaleStats (9997 / 10000)
    { band_a := fun _ _ => 0, band_h := fun _ _ => (34 : ℤ)
      band_v := fun _ _ => -99, band_d := fun _ _ => -10 }
    { band_a := fun _ _ => 0, band_h := fun _ _ => (54 : ℤ)
      band_v := fun _ _ => -62, band_d := fun _ _ => 27 } 2 1 1 = (7, 10) := by
  unfold admScaleStats adm_decouple adm_csf adm_cm
  simp only [c7r_dpx2, rfactor_eq, adm_cm_thresh_eq_zero, sub_zero]
  decide

theorem c7r_stats3 : admScaleStats (9997 / 10000)
    { band_a := fun _ _ => 0, band_h := fun _ _ => (50 : ℤ)
      band_v := fun _ _ => -151, band_d := fun _ _ => -14 }
    { band_a := fun _ _ => 0, band_h := fun _ _ => (50 : ℤ)
      band_v := fun _ _ => -128, band_d := fun _ _ => 28 } 3 1 1 = (11, 13) := by
  unfold admScaleStats adm_decouple adm_csf adm_cm
  simp only [c7r_dpx3, rfactor_eq, adm_cm_thresh_eq_zero, sub_zero]
  decide

/-- One exact-layout iteration, written out on a state literal: the reference
read matrix is `[[a0, r1], [b0, r17]]` and the distorted read matrix is
`[[b0, r17], [A, r33]]` with `A` the approximation the reference pass just
wrote. -/
theorem admRealIter2x2_eq (c1sq : ℚ) (r1 r17 r33 a0 b0 n0 d0 : ℤ)
    (sc : List (ℤ × ℤ)) (scale : ℕ) :
    admRealIter2x2 c1sq r1 r17 r33
      { a := a0, b := b0, num := n0, den := d0, scores := sc } scale =
      { a := (adm_dwt2 (fun i j => if i = 0 then (if j = 0 then a0 else i16 r1)
            else (if j = 0 then b0 else i16 r17)) 2 2).band_a 0 0
        b := (adm_dwt2 (fun i j => if i = 0 then (if j = 0 then b0 else i16 r17)
            else (if j = 0 then (adm_dwt2 (fun i j =>
                if i = 0 then (if j = 0 then a0 else i16 r1)
                else (if j = 0 then b0 else i16 r17)) 2 2).band_a 0 0
              else i16 r33)) 2 2).band_a 0 0
        num := n0 + (admScaleStats c1sq
          (adm_dwt2 (fun i j => if i = 0 then (if j = 0 then a0 else i16 r1)
            else (if j = 0 then b0 else i16 r17)) 2 2)
          (adm_dwt2 (fun i j => if i = 0 then (if j = 0 then b0 else i16 r17)
            else (if j = 0 then (adm_dwt2 (fun i j =>
                if i = 0 then (if j = 0 then a0 else i16 r1)
                else (if j = 0 then b0 else i16 r17)) 2 2).band_a 0 0
              else i16 r33)) 2 2) scale 1 1).1
        den := d0 + (admScaleStats c1sq
          (adm_dwt2 (fun i j => if i = 0 then (if j = 0 then a0 else i16 r1)
            else (if j = 0 then b0 else i16 r17)) 2 2)
          (adm_dwt2 (fun i j => if i = 0 then (if j = 0 then b0 else i16 r17)
            else (if j = 0 then (adm_dwt2 (fun i j =>
                if i = 0 then (if j = 0 then a0 else i16 r1)
                else (if j = 0 then b0 else i16 r17)) 2 2).band_a 0 0
              else i16 r33)) 2 2) scale 1 1).2
        scores := sc ++ [admScaleStats c1sq
          (adm_dwt2 (fun i j => if i = 0 then (if j = 0 then a0 else i16 r1)
            else (if j = 0 then b0 else i16 r17)) 2 2)
          (adm_dwt2 (fun i j => if i = 0 then (if j = 0 then b0 else i16 r17)
            else (if j = 0 then (adm_dwt2 (fun i j =>
                if i = 0 then (if j = 0 then a0 else i16 r1)
                else (if j = 0 then b0 else i16 r17)) 2 2).band_a 0 0
              else i16 r33)) 2 2) scale 1 1] } := rfl

/-- The scale-0 state of the constant-100 pair: both copied approximations
are 199 and the first score pair is (3, 3). -/
theorem c7r_st0 :
    ({ a := (adm_dwt2 (fun _ _ => (100 : ℤ)) 2 2).band_a 0 0
       b := (adm_dwt2 (fun _ _ => (100 : ℤ)) 2 2).band_a 0 0
       num := (admScaleStats (9997 / 10000) (adm_dwt2 (fun _ _ => (100 : ℤ)) 2 2)
         (adm_dwt2 (fun _ _ => (100 : ℤ)) 2 2) 0 1 1).1
       den := (admScaleStats (9997 / 10000) (adm_dwt2 (fun _ _ => (100 : ℤ)) 2 2)
         (adm_dwt2 (fun _ _ => (100 : ℤ)) 2 2) 0 1 1).2
       scores := [admScaleStats (9997 / 10000) (adm_dwt2 (fun _ _ => (100 : ℤ)) 2 2)
         (adm_dwt2 (fun _ _ => (100 : ℤ)) 2 2) 0 1 1] } : RealState2x2) =
    { a := 199, b := 199, num := 3, den := 3, scores := [(3, 3)] } := by
  refine RealState2x2.ext ?_ ?_ ?_ ?_ ?_
  · exact c7_q0.1
  · exact c7_q0.1
  · show (admScaleStats (9997 / 10000) (adm_dwt2 (fun _ _ => (100 : ℤ)) 2 2)
        (adm_dwt2 (fun _ _ => (100 : ℤ)) 2 2) 0 1 1).1 = 3
    rw [admScaleStats_1x1, c7_q0.2.1, c7_q0.2.2.1, c7_q0.2.2.2, admScaleStats_zero]
    decide
  · show (admScaleStats (9997 / 10000) (adm_dwt2 (fun _ _ => (100 : ℤ)) 2 2)
        (adm_dwt2 (fun _ _ => (100 : ℤ)) 2 2) 0 1 1).2 = 3
    rw [admScaleStats_1x1, c7_q0.2.1, c7_q0.2.2.1, c7_q0.2.2.2, admScaleStats_zero]
    decide
  · show [admScaleStats (9997 / 10000) (adm_dwt2 (fun _ _ => (100 : ℤ)) 2 2)
        (adm_dwt2 (fun _ _ => (100 : ℤ)) 2 2) 0 1 1] = [((3 : ℤ), (3 : ℤ))]
    rw [admScaleStats_1x1, c7_q0.2.1, c7_q0.2.2.1, c7_q0.2.2.2, admScaleStats_zero]
    decide

theorem c7r_e1 : admRealIter2x2 (9997 / 10000) 0 0 500
    { a := 199, b := 199, num := 3, den := 3, scores := [(3, 3)] } 1 =
    { a := 235, b := 419, num := 7, den := 9, scores := [(3, 3), (4, 6)] } := by
  rw [admRealIter2x2_eq, i16_zero, (by decide : i16 500 = 500), c7r_q1r.1,
    admScaleStats_1x1, c7r_q1r.2.1, c7r_q1r.2.2.1, c7r_q1r.2.2.2,
    c7r_q1m.2.1, c7r_q1m.2.2.1, c7r_q1m.2.2.2, c7r_stats1, c7r_q1m.1]
  refine RealState2x2.ext ?_ ?_ ?_ ?_ ?_ <;> decide


theorem c7r_e2 : admRealIter2x2 (9997 / 10000) 0 0 500
    { a := 235, b := 419, num := 7, den := 9, scores := [(3, 3), (4, 6)] } 2 =
    { a := 366, b := 635, num := 14, den := 19
      scores := [(3, 3), (4, 6), (7, 10)] } := by
  rw [admRealIter2x2_eq, i16_zero, (by decide : i16 500 = 500), c7r_q2r.1,
    admScaleStats_1x1, c7r_q2r.2.1, c7r_q2r.2.2.1, c7r_q2r.2.2.2,
    c7r_q2m.2.1, c7r_q2m.2.2.1, c7r_q2m.2.2.2, c7r_stats2, c7r_q2m.1]
  refine RealState2x2.ext ?_ ?_ ?_ ?_ ?_ <;> decide


theorem c7r_e3 : admRealIter2x2 (9997 / 10000) 0 0 500
    { a := 366, b := 635, num := 14, den := 19
      scores := [(3, 3), (4, 6), (7, 10)] } 3 =
    { a := 562, b := 881, num := 25, den := 32
      scores := [(3, 3), (4, 6), (7, 10), (11, 13)] } := by
  rw [admRealIter2x2_eq, i16_zero, (by decide : i16 500 = 500), c7r_q3r.1,
    admScaleStats_1x1, c7r_q3r.2.1, c7r_q3r.2.2.1, c7r_q3r.2.2.2,
    c7r_q3m.2.1, c7r_q3m.2.2.1, c7r_q3m.2.2.2, c7r_stats3, c7r_q3m.1]
  refine RealState2x2.ext ?_ ?_ ?_ ?_ ?_ <;> decide


/-- C7: the claim's conclusion fails on the source.  The decoupling half is
true (`decouplePixel_self`): on identical quads the angle test fires and
nothing is counted as distortion.  But `adm_dwt2_fn` reads `s->width` and
`s->height` — the full-frame dimensions — at every scale, while the driver
halves only its local copies, so from scale 1 on each DWT pass reads beyond
the half-resolution region `adm_buffer_copy` wrote.  In the exact arena
layout at `W = H = 2` (see `admRealIter2x2`) the reference pass reads the
distorted slot's copied cell and two uninitialized cells, and the distorted
pass reads the same-scale reference approximation and a third uninitialized
cell.  For the identical constant-100 frame pair with residue 0 in
`ref_scale[1]` and `main_scale[1]` and residue 500 in `ref_dwt2.band_a[1]`,
the returned score is 25/32 ≈ 0.781, not 1.0 within the claimed epsilon of
0.01. -/
theorem C7_identical_frames_score :
    (ff_adm_process_2x2 8 (9997 / 10000) (fun _ _ => 100) (fun _ _ => 100)
        0 0 500).score = 25 / 32 ∧
    |(25 / 32 : ℚ) - 1| > 1 / 100 := by
  have hst : List.foldl (admRealIter2x2 (9997 / 10000) 0 0 500)
      { a := (adm_dwt2 (fun _ _ => (100 : ℤ)) 2 2).band_a 0 0
        b := (adm_dwt2 (fun _ _ => (100 : ℤ)) 2 2).band_a 0 0
        num := (admScaleStats (9997 / 10000) (adm_dwt2 (fun _ _ => (100 : ℤ)) 2 2)
          (adm_dwt2 (fun _ _ => (100 : ℤ)) 2 2) 0 1 1).1
        den := (admScaleStats (9997 / 10000) (adm_dwt2 (fun _ _ => (100 : ℤ)) 2 2)
          (adm_dwt2 (fun _ _ => (100 : ℤ)) 2 2) 0 1 1).2
        scores := [admScaleStats (9997 / 10000) (adm_dwt2 (fun _ _ => (100 : ℤ)) 2 2)
          (adm_dwt2 (fun _ _ => (100 : ℤ)) 2 2) 0 1 1] } [1, 2, 3] =
      { a := 562, b := 881, num := 25, den := 32
        scores := [(3, 3), (4, 6), (7, 10), (11, 13)] } := by
    rw [c7r_st0]
    simp only [List.foldl_cons, List.foldl_nil]
    rw [c7r_e1, c7r_e2, c7r_e3]
  constructor
  · show (if (if ((List.foldl (admRealIter2x2 (9997 / 10000) 0 0 500)
        { a := (adm_dwt2 (fun _ _ => (100 : ℤ)) 2 2).band_a 0 0
          b := (adm_dwt2 (fun _ _ => (100 : ℤ)) 2 2).band_a 0 0
          num := (admScaleStats (9997 / 10000) (adm_dwt2 (fun _ _ => (100 : ℤ)) 2 2)
            (adm_dwt2 (fun _ _ => (100 : ℤ)) 2 2) 0 1 1).1
          den := (admScaleStats (9997 / 10000) (adm_dwt2 (fun _ _ => (100 : ℤ)) 2 2)
            (adm_dwt2 (fun _ _ => (100 : ℤ)) 2 2) 0 1 1).2
          scores := [admScaleStats (9997 / 10000) (adm_dwt2 (fun _ _ => (100 : ℤ)) 2 2)
            (adm_dwt2 (fun _ _ => (100 : ℤ)) 2 2) 0 1 1] } [1, 2, 3]).den : ℚ) <
          numden_limit 2 2 then (0 : ℚ)
        else ((List.foldl (admRealIter2x2 (9997 / 10000) 0 0 500)
        { a := (adm_dwt2 (fun _ _ => (100 : ℤ)) 2 2).band_a 0 0
          b := (adm_dwt2 (fun _ _ => (100 : ℤ)) 2 2).band_a 0 0
          num := (admScaleStats (9997 / 10000) (adm_dwt2 (fun _ _ => (100 : ℤ)) 2 2)
            (adm_dwt2 (fun _ _ => (100 : ℤ)) 2 2) 0 1 1).1
          den := (admScaleStats (9997 / 10000) (adm_dwt2 (fun _ _ => (100 : ℤ)) 2 2)
            (adm_dwt2 (fun _ _ => (100 : ℤ)) 2 2) 0 1 1).2
          scores := [admScaleStats (9997 / 10000) (adm_dwt2 (fun _ _ => (100 : ℤ)) 2 2)
            (adm_dwt2 (fun _ _ => (100 : ℤ)) 2 2) 0 1 1] } [1, 2, 3]).den : ℚ)) = 0
        then (1 : ℚ)
        else (if ((List.foldl (admRealIter2x2 (9997 / 10000) 0 0 500)
        { a := (adm_dwt2 (fun _ _ => (100 : ℤ)) 2 2).band_a 0 0
          b := (adm_dwt2 (fun _ _ => (100 : ℤ)) 2 2).band_a 0 0
          num := (admScaleStats (9997 / 10000) (adm_dwt2 (fun _ _ => (100 : ℤ)) 2 2)
            (adm_dwt2 (fun _ _ => (100 : ℤ)) 2 2) 0 1 1).1
          den := (admScaleStats (9997 / 10000) (adm_dwt2 (fun _ _ => (100 : ℤ)) 2 2)
            (adm_dwt2 (fun _ _ => (100 : ℤ)) 2 2) 0 1 1).2
          scores := [admScaleStats (9997 / 10000) (adm_dwt2 (fun _ _ => (100 : ℤ)) 2 2)
            (adm_dwt2 (fun _ _ => (100 : ℤ)) 2 2) 0 1 1] } [1, 2, 3]).num : ℚ) <
          numden_limit 2 2 then (0 : ℚ)
        else ((List.foldl (admRealIter2x2 (9997 / 10000) 0 0 500)
        { a := (adm_dwt2 (fun _ _ => (100 : ℤ)) 2 2).band_a 0 0
          b := (adm_dwt2 (fun _ _ => (100 : ℤ)) 2 2).band_a 0 0
          num := (admScaleStats (9997 / 10000) (adm_dwt2 (fun _ _ => (100 : ℤ)) 2 2)
            (adm_dwt2 (fun _ _ => (100 : ℤ)) 2 2) 0 1 1).1
          den := (admScaleStats (9997 / 10000) (adm_dwt2 (fun _ _ => (100 : ℤ)) 2 2)
            (adm_dwt2 (fun _ _ => (100 : ℤ)) 2 2) 0 1 1).2
          scores := [admScaleStats (9997 / 10000) (adm_dwt2 (fun _ _ => (100 : ℤ)) 2 2)
            (adm_dwt2 (fun _ _ => (100 : ℤ)) 2 2) 0 1 1] } [1, 2, 3]).num : ℚ)) /
        (if ((List.foldl (admRealIter2x2 (9997 / 10000) 0 0 500)
        { a := (adm_dwt2 (fun _ _ => (100 : ℤ)) 2 2).band_a 0 0
          b := (adm_dwt2 (fun _ _ => (100 : ℤ)) 2 2).band_a 0 0
          num := (admScaleStats (9997 / 10000) (adm_dwt2 (fun _ _ => (100 : ℤ)) 2 2)
            (adm_dwt2 (fun _ _ => (100 : ℤ)) 2 2) 0 1 1).1
          den := (admScaleStats (9997 / 10000) (adm_dwt2 (fun _ _ => (100 : ℤ)) 2 2)
            (adm_dwt2 (fun _ _ => (100 : ℤ)) 2 2) 0 1 1).2
          scores := [admScaleStats (9997 / 10000) (adm_dwt2 (fun _ _ => (100 : ℤ)) 2 2)
            (adm_dwt2 (fun _ _ => (100 : ℤ)) 2 2) 0 1 1] } [1, 2, 3]).den : ℚ) <
          numden_limit 2 2 then (0 : ℚ)
        else ((List.foldl (admRealIter2x2 (9997 / 10000) 0 0 500)
        { a := (adm_dwt2 (fun _ _ => (100 : ℤ)) 2 2).band_a 0 0
          b := (adm_dwt2 (fun _ _ => (100 : ℤ)) 2 2).band_a 0 0
          num := (admScaleStats (9997 / 10000) (adm_dwt2 (fun _ _ => (100 : ℤ)) 2 2)
            (adm_dwt2 (fun _ _ => (100 : ℤ)) 2 2) 0 1 1).1
          den := (admScaleStats (9997 / 10000) (adm_dwt2 (fun _ _ => (100 : ℤ)) 2 2)
            (adm_dwt2 (fun _ _ => (100 : ℤ)) 2 2) 0 1 1).2
          scores := [admScaleStats (9997 / 10000) (adm_dwt2 (fun _ _ => (100 : ℤ)) 2 2)
            (adm_dwt2 (fun _ _ => (100 : ℤ)) 2 2) 0 1 1] } [1, 2, 3]).den : ℚ))) = 25 / 32
    rw [hst]
    norm_num [numden_limit]
  · have h : |(25 / 32 : ℚ) - 1| = 7 / 32 := by
      rw [show (25 / 32 : ℚ) - 1 = -(7 / 32) by norm_num, abs_neg,
        abs_of_pos (by norm_num : (0 : ℚ) < 7 / 32)]
    rw [h]
    norm_num

/-- All-zero chain, scale-1 reference read `[[0, 0], [0, 0]]`. -/
theorem c8z_q1r :
    (adm_dwt2 (fun i j => if i = 0 then (if j = 0 then (0 : ℤ) else 0)
        else (if j = 0 then 0 else 0)) 2 2).band_a 0 0 = 0 ∧
    (adm_dwt2 (fun i j => if i = 0 then (if j = 0 then (0 : ℤ) else 0)
        else (if j = 0 then 0 else 0)) 2 2).band_h 0 0 = 0 ∧
    (adm_dwt2 (fun i j => if i = 0 then (if j = 0 then (0 : ℤ) else 0)
        else (if j = 0 then 0 else 0)) 2 2).band_v 0 0 = 0 ∧
    (adm_dwt2 (fun i j => if i = 0 then (if j = 0 then (0 : ℤ) else 0)
        else (if j = 0 then 0 else 0)) 2 2).band_d 0 0 = 0 := by
  unfold adm_dwt2
  rw [dwt2_lo_int_eq, dwt2_hi_int_eq]
  decide

/-- All-zero chain, scale-1 distorted read `[[0, 0], [0, 500]]`: only the
residue cell is nonzero. -/
theorem c8z_q1m :
    (adm_dwt2 (fun i j => if i = 0 then (if j = 0 then (0 : ℤ) else 0)
        else (if j = 0 then 0 else 500)) 2 2).band_a 0 0 = 166 ∧
    (adm_dwt2 (fun i j => if i = 0 then (if j = 0 then (0 : ℤ) else 0)
        else (if j = 0 then 0 else 500)) 2 2).band_h 0 0 = 64 ∧
    (adm_dwt2 (fun i j => if i = 0 then (if j = 0 then (0 : ℤ) else 0)
        else (if j = 0 then 0 else 500)) 2 2).band_v 0 0 = 64 ∧
    (adm_dwt2 (fun i j => if i = 0 then (if j = 0 then (0 : ℤ) else 0)
        else (if j = 0 then 0 else 500)) 2 2).band_d 0 0 = 25 := by
  unfold adm_dwt2
  rw [dwt2_lo_int_eq, dwt2_hi_int_eq]
  decide

theorem c8z_q2r :
    (adm_dwt2 (fun i j => if i = 0 then (if j = 0 then (0 : ℤ) else 0)
        else (if j = 0 then 166 else 0)) 2 2).band_a 0 0 = 79 ∧
    (adm_dwt2 (fun i j => if i = 0 then (if j = 0 then (0 : ℤ) else 0)
        else (if j = 0 then 166 else 0)) 2 2).band_h 0 0 = 30 ∧
    (adm_dwt2 (fun i j => if i = 0 then (if j = 0 then (0 : ℤ) else 0)
        else (if j = 0 then 166 else 0)) 2 2).band_v 0 0 = -22 ∧
    (adm_dwt2 (fun i j => if i = 0 then (if j = 0 then (0 : ℤ) else 0)
        else (if j = 0 then 166 else 0)) 2 2).band_d 0 0 = -9 := by
  unfold adm_dwt2
  rw [dwt2_lo_int_eq, dwt2_hi_int_eq]
  decide

theorem c8z_q2m :
    (adm_dwt2 (fun i j => if i = 0 then (if j = 0 then (166 : ℤ) else 0)
        else (if j = 0 then 79 else 500)) 2 2).band_a 0 0 = 320 ∧
    (adm_dwt2 (fun i j => if i = 0 then (if j = 0 then (166 : ℤ) else 0)
        else (if j = 0 then 79 else 500)) 2 2).band_h 0 0 = 47 ∧
    (adm_dwt2 (fun i j => if i = 0 then (if j = 0 then (166 : ℤ) else 0)
        else (if j = 0 then 79 else 500)) 2 2).band_v 0 0 = 23 ∧
    (adm_dwt2 (fun i j => if i = 0 then (if j = 0 then (166 : ℤ) else 0)
        else (if j = 0 then 79 else 500)) 2 2).band_d 0 0 = 29 := by
  unfold adm_dwt2
  rw [dwt2_lo_int_eq, dwt2_hi_int_eq]
  decide

theorem c8z_q3r :
    (adm_dwt2 (fun i j => if i = 0 then (if j = 0 then (79 : ℤ) else 0)
        else (if j = 0 then 320 else 0)) 2 2).band_a 0 0 = 209 ∧
    (adm_dwt2 (fun i j => if i = 0 then (if j = 0 then (79 : ℤ) else 0)
        else (if j = 0 then 320 else 0)) 2 2).band_h 0 0 = 45 ∧
    (adm_dwt2 (fun i j => if i = 0 then (if j = 0 then (79 : ℤ) else 0)
        else (if j = 0 then 320 else 0)) 2 2).band_v 0 0 = -57 ∧
    (adm_dwt2 (fun i j => if i = 0 then (if j = 0 then (79 : ℤ) else 0)
        else (if j = 0 then 320 else 0)) 2 2).band_d 0 0 = -13 := by
  unfold adm_dwt2
  rw [dwt2_lo_int_eq, dwt2_hi_int_eq]
  decide

theorem c8z_q3m :
    (adm_dwt2 (fun i j => if i = 0 then (if j = 0 then (320 : ℤ) else 0)
        else (if j = 0 then 209 else 500)) 2 2).band_a 0 0 = 490 ∧
    (adm_dwt2 (fun i j => if i = 0 then (if j = 0 then (320 : ℤ) else 0)
        else (if j = 0 then 209 else 500)) 2 2).band_h 0 0 = 43 ∧
    (adm_dwt2 (fun i j => if i = 0 then (if j = 0 then (320 : ℤ) else 0)
        else (if j = 0 then 209 else 500)) 2 2).band_v 0 0 = -23 ∧
    (adm_dwt2 (fun i j => if i = 0 then (if j = 0 then (320 : ℤ) else 0)
        else (if j = 0 then 209 else 500)) 2 2).band_d 0 0 = 30 := by
  unfold adm_dwt2
  rw [dwt2_lo_int_eq, dwt2_hi_int_eq]
  decide

/-- With a zero reference quad the angle test fires (both sides are zero),
so the nonzero distorted values pass through as restored detail. -/
theorem c8z_dpx1 : decouplePixel (9997 / 10000) 0 0 0 64 64 25 =
    ((64, 64, 25), (0, 0, 0)) := by
  unfold decouplePixel
  norm_num [clamp01, eps, i16, Int.ceil_neg, Int.floor_ofNat]

theorem c8z_dpx2 : decouplePixel (9997 / 10000) 30 (-22) (-9) 47 23 29 =
    ((30, 0, 0), (17, 23, 29)) := by
  unfold decouplePixel
  norm_num [clamp01, eps, i16, Int.ceil_neg, Int.floor_ofNat]

theorem c8z_dpx3 : decouplePixel (9997 / 10000) 45 (-57) (-13) 43 (-23) 30 =
    ((43, -23, 0), (1, 1, 30)) := by
  unfold decouplePixel
  have hc1 : ⌈(1935000000000000000000000000000000 : ℚ) /
      45000000000000000000000000000001⌉ = 43 :=
    ceil_eq_of (by norm_num) (by norm_num)
  have hc2 : ⌈(43 : ℚ) / 45000000000000000000000000000001⌉ = 1 :=
    ceil_eq_of (by norm_num) (by norm_num)
  have hc3 : ⌈(23 : ℚ) / 56999999999999999999999999999999⌉ = 1 :=
    ceil_eq_of (by norm_num) (by norm_num)
  norm_num [clamp01, eps, i16, Int.ceil_neg, Int.floor_ofNat, hc1, hc2, hc3]

theorem c8z_stats1 : admScaleStats (9997 / 10000)
    { band_a := fun _ _ => 0, band_h := fun _ _ => (0 : ℤ)
      band_v := fun _ _ => 0, band_d := fun _ _ => 0 }
    { band_a := fun _ _ => 0, band_h := fun _ _ => (64 : ℤ)
      band_v := fun _ _ => 64, band_d := fun _ _ => 25 } 1 1 1 = (7, 3) := by
  unfold admScaleStats adm_decouple adm_csf adm_cm
  simp only [c8z_dpx1, rfactor_eq, adm_cm_thresh_eq_zero, sub_zero]
  decide

theorem c8z_stats2 : admScaleStats (9997 / 10000)
    { band_a := fun _ _ => 0, band_h := fun _ _ => (30 : ℤ)
      band_v := fun _ _ => -22, band_d := fun _ _ => -9 }
    { band_a := fun _ _ => 0, band_h := fun _ _ => (47 : ℤ)
      band_v := fun _ _ => 23, band_d := fun _ _ => 29 } 2 1 1 = (4, 6) := by
  unfold admScaleStats adm_decouple adm_csf adm_cm
  simp only [c8z_dpx2, rfactor_eq, adm_cm_thresh_eq_zero, sub_zero]
  decide

theorem c8z_stats3 : admScaleStats (9997 / 10000)
    { band_a := fun _ _ => 0, band_h := fun _ _ => (45 : ℤ)
      band_v := fun _ _ => -57, band_d := fun _ _ => -13 }
    { band_a := fun _ _ => 0, band_h := fun _ _ => (43 : ℤ)
      band_v := fun _ _ => -23, band_d := fun _ _ => 30 } 3 1 1 = (6, 9) := by
  unfold admScaleStats adm_decouple adm_csf adm_cm
  simp only [c8z_dpx3, rfactor_eq, adm_cm_thresh_eq_zero, sub_zero]
  decide

theorem c8z_st0 :
    ({ a := (adm_dwt2 (fun _ _ => (0 : ℤ)) 2 2).band_a 0 0
       b := (adm_dwt2 (fun _ _ => (0 : ℤ)) 2 2).band_a 0 0
       num := (admScaleStats (9997 / 10000) (adm_dwt2 (fun _ _ => (0 : ℤ)) 2 2)
         (adm_dwt2 (fun _ _ => (0 : ℤ)) 2 2) 0 1 1).1
       den := (admScaleStats (9997 / 10000) (adm_dwt2 (fun _ _ => (0 : ℤ)) 2 2)
         (adm_dwt2 (fun _ _ => (0 : ℤ)) 2 2) 0 1 1).2
       scores := [admScaleStats (9997 / 10000) (adm_dwt2 (fun _ _ => (0 : ℤ)) 2 2)
         (adm_dwt2 (fun _ _ => (0 : ℤ)) 2 2) 0 1 1] } : RealState2x2) =
    { a := 0, b := 0, num := 3, den := 3, scores := [(3, 3)] } := by
  refine RealState2x2.ext ?_ ?_ ?_ ?_ ?_
  · show (adm_dwt2 (fun _ _ => (0 : ℤ)) 2 2).band_a 0 0 = 0
    simp [adm_dwt2_zero]
  · show (adm_dwt2 (fun _ _ => (0 : ℤ)) 2 2).band_a 0 0 = 0
    simp [adm_dwt2_zero]
  · show (admScaleStats (9997 / 10000) (adm_dwt2 (fun _ _ => (0 : ℤ)) 2 2)
        (adm_dwt2 (fun _ _ => (0 : ℤ)) 2 2) 0 1 1).1 = 3
    rw [adm_dwt2_zero, admScaleStats_zero]
    decide
  · show (admScaleStats (9997 / 10000) (adm_dwt2 (fun _ _ => (0 : ℤ)) 2 2)
        (adm_dwt2 (fun _ _ => (0 : ℤ)) 2 2) 0 1 1).2 = 3
    rw [adm_dwt2_zero, admScaleStats_zero]
    decide
  · show [admScaleStats (9997 / 10000) (adm_dwt2 (fun _ _ => (0 : ℤ)) 2 2)
        (adm_dwt2 (fun _ _ => (0 : ℤ)) 2 2) 0 1 1] = [((3 : ℤ), (3 : ℤ))]
    rw [adm_dwt2_zero, admScaleStats_zero]
    decide

theorem c8z_e1 : admRealIter2x2 (9997 / 10000) 0 0 500
    { a := 0, b := 0, num := 3, den := 3, scores := [(3, 3)] } 1 =
    { a := 0, b := 166, num := 10, den := 6, scores := [(3, 3), (7, 3)] } := by
  rw [admRealIter2x2_eq, i16_zero, (by decide : i16 500 = 500), c8z_q1r.1,
    admScaleStats_1x1, c8z_q1r.2.1, c8z_q1r.2.2.1, c8z_q1r.2.2.2,
    c8z_q1m.2.1, c8z_q1m.2.2.1, c8z_q1m.2.2.2, c8z_stats1, c8z_q1m.1]
  refine RealState2x2.ext ?_ ?_ ?_ ?_ ?_ <;> decide


theorem c8z_e2 : admRealIter2x2 (9997 / 10000) 0 0 500
    { a := 0, b := 166, num := 10, den := 6, scores := [(3, 3), (7, 3)] } 2 =
    { a := 79, b := 320, num := 14, den := 12
      scores := [(3, 3), (7, 3), (4, 6)] } := by
  rw [admRealIter2x2_eq, i16_zero, (by decide : i16 500 = 500), c8z_q2r.1,
    admScaleStats_1x1, c8z_q2r.2.1, c8z_q2r.2.2.1, c8z_q2r.2.2.2,
    c8z_q2m.2.1, c8z_q2m.2.2.1, c8z_q2m.2.2.2, c8z_stats2, c8z_q2m.1]
  refine RealState2x2.ext ?_ ?_ ?_ ?_ ?_ <;> decide


theorem c8z_e3 : admRealIter2x2 (9997 / 10000) 0 0 500
    { a := 79, b := 320, num := 14, den := 12
      scores := [(3, 3), (7, 3), (4, 6)] } 3 =
    { a := 209, b := 490, num := 20, den := 21
      scores := [(3, 3), (7, 3), (4, 6), (6, 9)] } := by
  rw [admRealIter2x2_eq, i16_zero, (by decide : i16 500 = 500), c8z_q3r.1,
    admScaleStats_1x1, c8z_q3r.2.1, c8z_q3r.2.2.1, c8z_q3r.2.2.2,
    c8z_q3m.2.1, c8z_q3m.2.2.1, c8z_q3m.2.2.2, c8z_stats3, c8z_q3m.1]
  refine RealState2x2.ext ?_ ?_ ?_ ?_ ?_ <;> decide


/-- Even for an all-zero frame pair the score is residue-dependent: in the
exact arena layout at `W = H = 2`, residue 500 in the single uninitialized
cell `ref_dwt2.band_a[1]` (zero elsewhere) reaches only the distorted DWT
pass, the two sides' quads diverge from scale 1 on, and the returned score
is 20/21, not 1.  The all-zero score is exactly 1 precisely when the cells
the two overrunning passes read agree, as in `C8_zero_score_one`. -/
theorem c8_real_residue_dependence :
    (ff_adm_process_2x2 8 (9997 / 10000) (fun _ _ => 0) (fun _ _ => 0)
        0 0 500).score = 20 / 21 ∧ ((20 : ℚ) / 21) ≠ 1 := by
  have hst : List.foldl (admRealIter2x2 (9997 / 10000) 0 0 500)
      { a := (adm_dwt2 (fun _ _ => (0 : ℤ)) 2 2).band_a 0 0
        b := (adm_dwt2 (fun _ _ => (0 : ℤ)) 2 2).band_a 0 0
        num := (admScaleStats (9997 / 10000) (adm_dwt2 (fun _ _ => (0 : ℤ)) 2 2)
          (adm_dwt2 (fun _ _ => (0 : ℤ)) 2 2) 0 1 1).1
        den := (admScaleStats (9997 / 10000) (adm_dwt2 (fun _ _ => (0 : ℤ)) 2 2)
          (adm_dwt2 (fun _ _ => (0 : ℤ)) 2 2) 0 1 1).2
        scores := [admScaleStats (9997 / 10000) (adm_dwt2 (fun _ _ => (0 : ℤ)) 2 2)
          (adm_dwt2 (fun _ _ => (0 : ℤ)) 2 2) 0 1 1] } [1, 2, 3] =
      { a := 209, b := 490, num := 20, den := 21
        scores := [(3, 3), (7, 3), (4, 6), (6, 9)] } := by
    rw [c8z_st0]
    simp only [List.foldl_cons, List.foldl_nil]
    rw [c8z_e1, c8z_e2, c8z_e3]
  refine ⟨?_, by norm_num⟩
  show (if (if ((List.foldl (admRealIter2x2 (9997 / 10000) 0 0 500)
      { a := (adm_dwt2 (fun _ _ => (0 : ℤ)) 2 2).band_a 0 0
        b := (adm_dwt2 (fun _ _ => (0 : ℤ)) 2 2).band_a 0 0
        num := (admScaleStats (9997 / 10000) (adm_dwt2 (fun _ _ => (0 : ℤ)) 2 2)
          (adm_dwt2 (fun _ _ => (0 : ℤ)) 2 2) 0 1 1).1
        den := (admScaleStats (9997 / 10000) (adm_dwt2 (fun _ _ => (0 : ℤ)) 2 2)
          (adm_dwt2 (fun _ _ => (0 : ℤ)) 2 2) 0 1 1).2
        scores := [admScaleStats (9997 / 10000) (adm_dwt2 (fun _ _ => (0 : ℤ)) 2 2)
          (adm_dwt2 (fun _ _ => (0 : ℤ)) 2 2) 0 1 1] } [1, 2, 3]).den : ℚ) <
      numden_limit 2 2 then (0 : ℚ)
      else ((List.foldl (admRealIter2x2 (9997 / 10000) 0 0 500)
      { a := (adm_dwt2 (fun _ _ => (0 : ℤ)) 2 2).band_a 0 0
        b := (adm_dwt2 (fun _ _ => (0 : ℤ)) 2 2).band_a 0 0
        num := (admScaleStats (9997 / 10000) (adm_dwt2 (fun _ _ => (0 : ℤ)) 2 2)
          (adm_dwt2 (fun _ _ => (0 : ℤ)) 2 2) 0 1 1).1
        den := (admScaleStats (9997 / 10000) (adm_dwt2 (fun _ _ => (0 : ℤ)) 2 2)
          (adm_dwt2 (fun _ _ => (0 : ℤ)) 2 2) 0 1 1).2
        scores := [admScaleStats (9997 / 10000) (adm_dwt2 (fun _ _ => (0 : ℤ)) 2 2)
          (adm_dwt2 (fun _ _ => (0 : ℤ)) 2 2) 0 1 1] } [1, 2, 3]).den : ℚ)) = 0
      then (1 : ℚ)
      else (if ((List.foldl (admRealIter2x2 (9997 / 10000) 0 0 500)
      { a := (adm_dwt2 (fun _ _ => (0 : ℤ)) 2 2).band_a 0 0
        b := (adm_dwt2 (fun _ _ => (0 : ℤ)) 2 2).band_a 0 0
        num := (admScaleStats (9997 / 10000) (adm_dwt2 (fun _ _ => (0 : ℤ)) 2 2)
          (adm_dwt2 (fun _ _ => (0 : ℤ)) 2 2) 0 1 1).1
        den := (admScaleStats (9997 / 10000) (adm_dwt2 (fun _ _ => (0 : ℤ)) 2 2)
          (adm_dwt2 (fun _ _ => (0 : ℤ)) 2 2) 0 1 1).2
        scores := [admScaleStats (9997 / 10000) (adm_dwt2 (fun _ _ => (0 : ℤ)) 2 2)
          (adm_dwt2 (fun _ _ => (0 : ℤ)) 2 2) 0 1 1] } [1, 2, 3]).num : ℚ) <
      numden_limit 2 2 then (0 : ℚ)
      else ((List.foldl (admRealIter2x2 (9997 / 10000) 0 0 500)
      { a := (adm_dwt2 (fun _ _ => (0 : ℤ)) 2 2).band_a 0 0
        b := (adm_dwt2 (fun _ _ => (0 : ℤ)) 2 2).band_a 0 0
        num := (admScaleStats (9997 / 10000) (adm_dwt2 (fun _ _ => (0 : ℤ)) 2 2)
          (adm_dwt2 (fun _ _ => (0 : ℤ)) 2 2) 0 1 1).1
        den := (admScaleStats (9997 / 10000) (adm_dwt2 (fun _ _ => (0 : ℤ)) 2 2)
          (adm_dwt2 (fun _ _ => (0 : ℤ)) 2 2) 0 1 1).2
        scores := [admScaleStats (9997 / 10000) (adm_dwt2 (fun _ _ => (0 : ℤ)) 2 2)
          (adm_dwt2 (fun _ _ => (0 : ℤ)) 2 2) 0 1 1] } [1, 2, 3]).num : ℚ)) /
      (if ((List.foldl (admRealIter2x2 (9997 / 10000) 0 0 500)
      { a := (adm_dwt2 (fun _ _ => (0 : ℤ)) 2 2).band_a 0 0
        b := (adm_dwt2 (fun _ _ => (0 : ℤ)) 2 2).band_a 0 0
        num := (admScaleStats (9997 / 10000) (adm_dwt2 (fun _ _ => (0 : ℤ)) 2 2)
          (adm_dwt2 (fun _ _ => (0 : ℤ)) 2 2) 0 1 1).1
        den := (admScaleStats (9997 / 10000) (adm_dwt2 (fun _ _ => (0 : ℤ)) 2 2)
          (adm_dwt2 (fun _ _ => (0 : ℤ)) 2 2) 0 1 1).2
        scores := [admScaleStats (9997 / 10000) (adm_dwt2 (fun _ _ => (0 : ℤ)) 2 2)
          (adm_dwt2 (fun _ _ => (0 : ℤ)) 2 2) 0 1 1] } [1, 2, 3]).den : ℚ) <
      numden_limit 2 2 then (0 : ℚ)
      else ((List.foldl (admRealIter2x2 (9997 / 10000) 0 0 500)
      { a := (adm_dwt2 (fun _ _ => (0 : ℤ)) 2 2).band_a 0 0
        b := (adm_dwt2 (fun _ _ => (0 : ℤ)) 2 2).band_a 0 0
        num := (admScaleStats (9997 / 10000) (adm_dwt2 (fun _ _ => (0 : ℤ)) 2 2)
          (adm_dwt2 (fun _ _ => (0 : ℤ)) 2 2) 0 1 1).1
        den := (admScaleStats (9997 / 10000) (adm_dwt2 (fun _ _ => (0 : ℤ)) 2 2)
          (adm_dwt2 (fun _ _ => (0 : ℤ)) 2 2) 0 1 1).2
        scores := [admScaleStats (9997 / 10000) (adm_dwt2 (fun _ _ => (0 : ℤ)) 2 2)
          (adm_dwt2 (fun _ _ => (0 : ℤ)) 2 2) 0 1 1] } [1, 2, 3]).den : ℚ))) = 20 / 21
  rw [hst]
  norm_num [numden_limit]

end Adm
